import Mathlib

/-!
# Lamumu cow stack game: the round state and its event handlers

A shallow embedding of `src/index.js`.  The global variables of the script
are the fields of `Game`; every handler is a function on `Game`.  JavaScript
numbers are taken as exact rationals (`0.6 = 3/5`, `0.008 = 1/125`,
`0.1 = 1/10`).  A handler that can raise a JavaScript exception returns
`Except Game Game`: `.error g` is "an exception left the handler with the
globals equal to `g`".  The only exception modelled is the `RangeError` of
`String.prototype.repeat` in `updateUI`, raised when `lives` is outside
`0..3`, and the `TypeError` of reading a field of `undefined`.

The DOM, the canvas, audio and the scheduling of callbacks are outside the
model: `gameContainer.clientWidth` and `gameContainer.clientHeight` are
parameters of each frame, and `Math.random` is a parameter of `spawnNewCow`.
-/

namespace LamumuStack

/-- The three values the script assigns to `gameState`. -/
inductive GameState where
  | start
  | playing
  | gameover
  deriving DecidableEq, Repr

/-- An entry of the `cowTypes` table. -/
structure CowType where
  id : String
  color : String
  name : String
  imageUrl : String
  deriving DecidableEq, Repr

/-- The `cowTypes` table. -/
def cowTypes : List CowType :=
  [ { id := "classic", color := "#FFCCCB", name := "Classic", imageUrl := "cow.png" },
    { id := "cowboy", color := "#DEB887", name := "Cowboy", imageUrl := "cow1.png" },
    { id := "rocket", color := "#FF6B6B", name := "Rocket", imageUrl := "cow2.png" },
    { id := "alien", color := "#98FB98", name := "Alien", imageUrl := "cow3.png" } ]

/-- The object literal built by `dropCow`.  `uid` stands for the identity of
the JavaScript object: `dropCow` creates a fresh object on every call, and two
objects with equal fields are still two cows. -/
structure Cow where
  x : ℚ
  y : ℚ
  width : ℚ
  height : ℚ
  vy : ℚ
  color : String
  imageUrl : String
  id : String
  landed : Bool
  uid : ℕ
  deriving DecidableEq, Repr

/-- The global variables of the script that the round logic reads or writes.
`nextUid` is the supply of object identities for `dropCow`. -/
structure Game where
  gameState : GameState
  score : ℤ
  lives : ℤ
  timeLeft : ℤ
  playerUsername : String
  highestStack : ℕ
  timeSurvived : ℤ
  cranePosition : ℚ
  craneDirection : ℚ
  craneSpeed : ℚ
  currentCowOnCrane : Option CowType
  fallingCows : List Cow
  stackedCows : List Cow
  viewOffsetY : ℚ
  targetViewOffsetY : ℚ
  nextUid : ℕ
  deriving DecidableEq, Repr

/-- The globals as the script initialises them at load time. -/
def initialGame : Game :=
  { gameState := .start, score := 0, lives := 3, timeLeft := 60,
    playerUsername := "", highestStack := 0, timeSurvived := 0,
    cranePosition := 0, craneDirection := 1, craneSpeed := 3 / 2,
    currentCowOnCrane := none, fallingCows := [], stackedCows := [],
    viewOffsetY := 0, targetViewOffsetY := 0, nextUid := 0 }

/-- The globals after a handler, whether it returned or raised. -/
def finalState : Except Game Game → Game
  | .ok g => g
  | .error g => g

/-- `updateUI`: writes the score, the timer and the hearts to the page.
`'❤️'.repeat(lives)` and `'🖤'.repeat(3 - lives)` raise a `RangeError` for a
negative count; no global changes. -/
def updateUI (g : Game) : Except Game Game :=
  if 0 ≤ g.lives ∧ 0 ≤ 3 - g.lives then .ok g else .error g

/-- `endGame`: of the globals of `Game` only `gameState` changes. -/
def endGame (g : Game) : Game :=
  { g with gameState := .gameover }

/-- `loseLife`. -/
def loseLife (g : Game) : Except Game Game := do
  let g1 := { g with lives := g.lives - 1 }
  let g2 ← updateUI g1
  if g2.lives ≤ 0 then pure (endGame g2) else pure g2

/-- `spawnNewCow`; `k` is the index `Math.floor(Math.random() * cowTypes.length)`. -/
def spawnNewCow (k : Fin 4) (g : Game) : Game :=
  if g.gameState ≠ .playing then g
  else { g with currentCowOnCrane := cowTypes.get? k.val }

/-- The smoothing step at the end of `updateView`:
`viewOffsetY += (targetViewOffsetY - viewOffsetY) * 0.1` followed by
`Math.floor`. -/
def smoothStep (offset target : ℚ) : ℚ :=
  (⌊offset + (target - offset) * (1 / 10)⌋ : ℤ)

/-- `Math.min(...stackedCows.map(cow => cow.y))` for a non-empty array. -/
def minY : List Cow → ℚ
  | [] => 0
  | c :: cs => cs.foldl (fun m d => min m d.y) c.y

/-- `updateView`; `containerHeight` is `gameContainer.clientHeight`. -/
def updateView (containerHeight : ℚ) (g : Game) : Game :=
  let highestY : ℚ := if g.stackedCows.length > 0 then minY g.stackedCows else containerHeight - 20
  let craneY : ℚ := 15
  let distanceFromCrane := highestY - craneY
  let target : ℚ := if distanceFromCrane < 150 then ((⌊150 - distanceFromCrane⌋ : ℤ) : ℚ) else 0
  { g with targetViewOffsetY := target, viewOffsetY := smoothStep g.viewOffsetY target }

/-- `moveCrane`; `containerWidth` is `gameContainer.clientWidth`. -/
def moveCrane (containerWidth : ℚ) (g : Game) : Game :=
  if g.gameState ≠ .playing ∨ g.currentCowOnCrane = none then g
  else
    let pos := g.cranePosition + g.craneDirection * g.craneSpeed
    let craneWidth : ℚ := 50
    if pos ≤ 0 then { g with cranePosition := 0, craneDirection := 1 }
    else if pos ≥ containerWidth - craneWidth then
      { g with cranePosition := containerWidth - craneWidth, craneDirection := -1 }
    else { g with cranePosition := pos }

/-- `dropCow`: the falling cow is created from the cow on the crane. -/
def dropCow (g : Game) : Game :=
  if g.gameState ≠ .playing then g
  else
    match g.currentCowOnCrane with
    | none => g
    | some t =>
      let cow : Cow :=
        { x := g.cranePosition + 15, y := 50, width := 50, height := 42, vy := 0,
          color := t.color, imageUrl := t.imageUrl, id := t.id, landed := false,
          uid := g.nextUid }
      { g with fallingCows := g.fallingCows ++ [cow], currentCowOnCrane := none,
               nextUid := g.nextUid + 1 }

/-- The test "horizontal overlap" of `updateFallingCows`:
`cow.x < stackCow.x + stackCow.width && cow.x + cow.width > stackCow.x`. -/
def overlaps (cow stackCow : Cow) : Prop :=
  cow.x < stackCow.x + stackCow.width ∧ cow.x + cow.width > stackCow.x

instance (cow stackCow : Cow) : Decidable (overlaps cow stackCow) := by
  unfold overlaps
  exact instDecidableAnd

/-- One pass of the inner `for` loop of `updateFallingCows` over a stacked
cow; `acc` is the pair `(highestCollisionY, collisionDetected)`. -/
def scanStep (cow : Cow) (acc : ℚ × Bool) (stackCow : Cow) : ℚ × Bool :=
  if overlaps cow stackCow then
    if stackCow.y < acc.1 then (stackCow.y, true) else acc
  else acc

/-- The scan of `stackedCows` in `updateFallingCows`: the pair
`(highestCollisionY, collisionDetected)` after the inner `for` loop, which
starts from `(groundLevel, false)`. -/
def collisionScan (cow : Cow) (groundLevel : ℚ) (stacked : List Cow) : ℚ × Bool :=
  stacked.foldl (scanStep cow) (groundLevel, false)

/-- The horizontal centre `cow.x + cow.width / 2` that both landing branches
compute as `cowCenter`. -/
def cowCenter (cow : Cow) : ℚ :=
  cow.x + cow.width / 2

/-- `stackingZoneLeft` of `updateFallingCows` (`stackingZoneWidth` is 100). -/
def stackingZoneLeft (containerWidth : ℚ) : ℚ :=
  containerWidth / 2 - 100 / 2

/-- `stackingZoneRight` of `updateFallingCows`. -/
def stackingZoneRight (containerWidth : ℚ) : ℚ :=
  containerWidth / 2 + 100 / 2

/-- "Apply gravity": `cow.vy += 0.6; cow.y += cow.vy`. -/
def applyGravity (cow : Cow) : Cow :=
  { cow with vy := cow.vy + 3 / 5, y := cow.y + (cow.vy + 3 / 5) }

/-- The lines both landing branches end with: `highestStack = Math.max(...)`,
`updateUI()`, `updateView()`, `craneSpeed = Math.min(1.5 + score * 0.008, 4)`. -/
def finishLanding (containerHeight : ℚ) (g : Game) : Except Game Game := do
  let g1 : Game := { g with highestStack := max g.highestStack g.stackedCows.length }
  let g2 ← updateUI g1
  let g3 := updateView containerHeight g2
  pure { g3 with craneSpeed := min (3 / 2 + (g3.score : ℚ) * (1 / 125)) 4 }

/-- The branch "Landed on stack" of `updateFallingCows`.  `cow` is the falling
cow after the gravity step, still at `index` of `fallingCows`; the result is
the cow object and the globals at the end of the branch. -/
def landOnStack (containerWidth containerHeight : ℚ) (index : ℕ) (cow : Cow)
    (highestCollisionY : ℚ) (g : Game) : Except Game (Cow × Game) := do
  let center := cowCenter cow
  let cow2 : Cow := { cow with y := highestCollisionY - cow.height, landed := true }
  let g2 : Game :=
    { g with stackedCows := g.stackedCows ++ [cow2],
             fallingCows := g.fallingCows.eraseIdx index }
  let g3 : Game :=
    if center ≥ stackingZoneLeft containerWidth ∧ center ≤ stackingZoneRight containerWidth then
      { g2 with score := g2.score + 15 }
    else { g2 with score := g2.score + 10 }
  let g4 ← finishLanding containerHeight g3
  pure (cow2, g4)

/-- The branch "Good landing in the zone" of `updateFallingCows`. -/
def landOnGround (containerWidth containerHeight : ℚ) (index : ℕ) (cow : Cow)
    (g : Game) : Except Game (Cow × Game) := do
  let groundLevel := containerHeight - 20
  let stackingZoneCenter := containerWidth / 2
  let cow2 : Cow :=
    { cow with y := groundLevel - cow.height, x := stackingZoneCenter - cow.width / 2,
               landed := true }
  let g2 : Game :=
    { g with stackedCows := g.stackedCows ++ [cow2],
             fallingCows := g.fallingCows.eraseIdx index }
  let g3 : Game := { g2 with score := g2.score + 10 }
  let g4 ← finishLanding containerHeight g3
  pure (cow2, g4)

/-- The branch "Cow landed outside the stacking zone - lose a life". -/
def missGround (index : ℕ) (cow : Cow) (g : Game) : Except Game (Cow × Game) := do
  let g2 : Game := { g with fallingCows := g.fallingCows.eraseIdx index }
  let g3 ← loseLife g2
  pure (cow, g3)

/-- The closing block of one iteration of the loop of `updateFallingCows`:
"Remove cows that fall off screen". -/
def offScreenCheck (containerHeight : ℚ) (index : ℕ) (cow : Cow) (g : Game) :
    Except Game Game :=
  if cow.y > containerHeight + 50 then
    let g1 : Game := { g with fallingCows := g.fallingCows.eraseIdx index }
    if cow.landed = false then loseLife g1 else pure g1
  else pure g

/-- The `if / else if` chain of one iteration of the loop of
`updateFallingCows`, for the cow `cow` after the gravity step. -/
def resolveBranch (containerWidth containerHeight : ℚ) (index : ℕ) (cow : Cow)
    (g : Game) : Except Game (Cow × Game) :=
  let groundLevel := containerHeight - 20
  let scan := collisionScan cow groundLevel g.stackedCows
  let highestCollisionY := scan.1
  let collisionDetected := scan.2
  if collisionDetected = true ∧ cow.y + cow.height ≥ highestCollisionY then
    landOnStack containerWidth containerHeight index cow highestCollisionY g
  else if collisionDetected = false ∧ cow.y + cow.height ≥ groundLevel then
    if cowCenter cow ≥ stackingZoneLeft containerWidth
        ∧ cowCenter cow ≤ stackingZoneRight containerWidth then
      landOnGround containerWidth containerHeight index cow g
    else missGround index cow g
  else pure (cow, g)

/-- One iteration of the outer loop of `updateFallingCows`, at `index`.
Reading a field of `fallingCows[index]` when it is `undefined` raises. -/
def resolveCow (containerWidth containerHeight : ℚ) (index : ℕ) (g : Game) :
    Except Game Game :=
  match g.fallingCows.get? index with
  | none => .error g
  | some cow0 =>
    if cow0.landed = true then pure g
    else do
      let cow := applyGravity cow0
      let g1 : Game := { g with fallingCows := g.fallingCows.set index cow }
      let r ← resolveBranch containerWidth containerHeight index cow g1
      offScreenCheck containerHeight index r.1 r.2

/-- The outer loop of `updateFallingCows` from `index = n - 1` down to `0`. -/
def fallingLoop (containerWidth containerHeight : ℚ) : ℕ → Game → Except Game Game
  | 0, g => pure g
  | n + 1, g => do
    let g1 ← resolveCow containerWidth containerHeight n g
    fallingLoop containerWidth containerHeight n g1

/-- `updateFallingCows`. -/
def updateFallingCows (containerWidth containerHeight : ℚ) (g : Game) : Except Game Game :=
  fallingLoop containerWidth containerHeight g.fallingCows.length g

/-- `gameLoop`: one animation frame (`drawGame` changes no global). -/
def gameLoop (containerWidth containerHeight : ℚ) (g : Game) : Except Game Game :=
  if g.gameState ≠ .playing then pure g
  else updateFallingCows containerWidth containerHeight (moveCrane containerWidth g)

/-- The callback that `startGameTimer` passes to `setInterval`. -/
def timerTick (g : Game) : Except Game Game :=
  if g.gameState ≠ .playing then pure g
  else do
    let g1 : Game := { g with timeLeft := g.timeLeft - 1 }
    let g2 : Game := { g1 with timeSurvived := 60 - g1.timeLeft }
    let g3 ← updateUI g2
    if g3.timeLeft ≤ 0 then pure (endGame g3) else pure g3

/-- `startGame` when the username read from the page is not blank after
`trim` (for a blank one `startGame` returns at once and no round starts),
followed by `initializeGame`, whose `updateUI` sees `lives = 3` and whose
`spawnNewCow` draws cow type `k`. -/
def startGame (username : String) (k : Fin 4) (g : Game) : Game :=
  spawnNewCow k
    { g with playerUsername := username, gameState := .playing, score := 0, lives := 3,
             timeLeft := 60, craneSpeed := 3 / 2, highestStack := 0, timeSurvived := 0,
             fallingCows := [], stackedCows := [], cranePosition := 0, craneDirection := 1,
             viewOffsetY := 0, targetViewOffsetY := 0 }

/-- `n` animation frames in a row at a fixed container size. -/
def runFrames (containerWidth containerHeight : ℚ) : ℕ → Game → Game
  | 0, g => g
  | n + 1, g =>
    runFrames containerWidth containerHeight n
      (finalState (gameLoop containerWidth containerHeight g))

/-- `n` firings of the one-second timer in a row. -/
def runTimer : ℕ → Game → Game
  | 0, g => g
  | n + 1, g => runTimer n (finalState (timerTick g))

/-- One event of a round: a drop, a spawn (the `setTimeout` callback of
`dropCow`), an animation frame or a timer firing.  The container size is read
anew at every frame. -/
inductive Step : Game → Game → Prop
  | drop (g : Game) : Step g (dropCow g)
  | spawn (k : Fin 4) (g : Game) : Step g (spawnNewCow k g)
  | frame (containerWidth containerHeight : ℚ) (g : Game) :
      Step g (finalState (gameLoop containerWidth containerHeight g))
  | timer (g : Game) : Step g (finalState (timerTick g))

/-- The states of one round: `startGame` from any globals, then any sequence
of events. -/
inductive Reachable : Game → Prop
  | start (username : String) (k : Fin 4) (g : Game) : Reachable (startGame username k g)
  | step {g g2 : Game} : Reachable g → Step g g2 → Reachable g2

/-! ## Predicates used in the statements -/

/-- The result `r` of a handler satisfies `P` if it returned and `Q` (a
predicate on the globals) if it raised. -/
def Post {α : Type} (P : α → Prop) (Q : Game → Prop) : Except Game α → Prop
  | .ok a => P a
  | .error g => Q g

/-- The formula of `updateFallingCows` for the crane speed:
`Math.min(1.5 + score * 0.008, 4)`. -/
def speedOfScore (score : ℤ) : ℚ :=
  min (3 / 2 + (score : ℚ) * (1 / 125)) 4

/-- The facts about score, lives, timer and crane speed that hold in every
state of a round. -/
def RoundInv (g : Game) : Prop :=
  g.lives ≤ 3 ∧ 0 ≤ g.score ∧ g.craneSpeed = speedOfScore g.score ∧
    (g.gameState = GameState.playing → 0 < g.lives ∧ 0 < g.timeLeft)

/-- What holds between two iterations of the loop of `updateFallingCows`:
`RoundInv`, and `lives` has not gone below 0 (a `loseLife` that takes it
below 0 raises in its `updateUI`). -/
def LoopInv (g : Game) : Prop :=
  RoundInv g ∧ 0 ≤ g.lives

/-- The facts about the two collections that hold in every state of a round:
the `landed` flags, and the object identities of all cows in the two
collections are pairwise distinct and were handed out by `dropCow`. -/
def CowsInv (g : Game) : Prop :=
  (∀ c ∈ g.fallingCows, c.landed = false) ∧ (∀ c ∈ g.stackedCows, c.landed = true) ∧
    (g.fallingCows.map Cow.uid ++ g.stackedCows.map Cow.uid).Nodup ∧
    (∀ u ∈ g.fallingCows.map Cow.uid ++ g.stackedCows.map Cow.uid, u < g.nextUid)

/-- How the collections of `g2` relate to those of an earlier state `g` of the
same frame: the stack only grew at its end, every new stacked cow was falling
in `g`, and no cow started falling. -/
def FrameRel (g g2 : Game) : Prop :=
  g.stackedCows <+: g2.stackedCows ∧
    (∀ d ∈ g2.stackedCows, d ∈ g.stackedCows ∨ d.uid ∈ g.fallingCows.map Cow.uid) ∧
    (∀ u ∈ g2.fallingCows.map Cow.uid, u ∈ g.fallingCows.map Cow.uid) ∧
    g2.nextUid = g.nextUid

/-- The loop invariant of `updateFallingCows` for the collections: `g` is a
state inside a frame that started in `g0`. -/
def CowsRel (g0 g : Game) : Prop :=
  CowsInv g ∧ FrameRel g0 g

/-! ## Concrete rounds used as test inputs -/

/-- A round just started by the player "player" with the classic cow on the
crane. -/
def freshRound : Game :=
  startGame "player" 0 initialGame

/-- A round in a 400 by 100 container: two cows were dropped one after the
other from the crane at the left wall and each missed the zone on its first
frame (`lives = 1`); then two more cows were dropped with no animation frame
between the two drops, so both are falling side by side. -/
def twoCowsOneLife : Game :=
  dropCow (spawnNewCow 3 (dropCow (spawnNewCow 2
    (runFrames 400 100 1 (dropCow (spawnNewCow 1
      (runFrames 400 100 1 (dropCow freshRound))))))))

/-- The cow that `dropCow` creates on a fresh round: the crane is at the left
wall. -/
def firstCow : Cow :=
  { x := 15, y := 50, width := 50, height := 42, vy := 0, color := "#FFCCCB",
    imageUrl := "cow.png", id := "classic", landed := false, uid := 0 }

/-- A round in a 400 by 1000 container in which the first cow, dropped at the
left wall, has been falling for 29 frames (`y = 311`, `vy = 17.4`). -/
def longFall : Game :=
  runFrames 400 1000 29 (dropCow freshRound)

/-- A round in a 400 by 400 container: the crane travelled for 106 frames
(to `cranePosition = 159`), the first cow was dropped there (`x = 174`, centre
199) and has been falling for 30 frames (`y = 329`, `vy = 18`).  Nothing is
stacked. -/
def groundLandingRound : Game :=
  runFrames 400 400 30 (dropCow (runFrames 400 400 106 freshRound))

/-- The round of `groundLandingRound` one frame later (the first cow has
landed on the ground, snapped to `x = 175`, `y = 338`), after a spawn, a drop
from the same crane position and 28 more frames: the second cow is at
`x = 174`, `y = 293.6`, above the stacked cow. -/
def stackLandingRound : Game :=
  runFrames 400 400 28 (dropCow (spawnNewCow 1 (runFrames 400 400 1 groundLandingRound)))

/-- A round in a 400 by 1688 container (ground level 1668): the first cow
landed on the ground (`y = 1626`); the second, dropped at `x = 174`, has been
falling for 71 frames and is at `y = 1583.6` with `vy = 42.6`, its bottom edge
at 1625.6 still above the stacked cow.  The next gravity step takes its bottom
edge to 1668.8, past the stacked cow and past ground level at once. -/
def tunnelRound : Game :=
  runFrames 400 1688 71 (dropCow (spawnNewCow 1
    (runFrames 400 1688 72 (dropCow (runFrames 400 1688 106 freshRound)))))

/-- The second cow of `stackLandingRound` (a cowboy cow) as it falls. -/
def secondCow : Cow :=
  { x := 174, y := 1468 / 5, width := 50, height := 42, vy := 84 / 5, color := "#DEB887",
    imageUrl := "cow1.png", id := "cowboy", landed := false, uid := 1 }

/-- The falling cow of `tunnelRound`. -/
def tunnelCow : Cow :=
  { x := 174, y := 7918 / 5, width := 50, height := 42, vy := 213 / 5, color := "#DEB887",
    imageUrl := "cow1.png", id := "cowboy", landed := false, uid := 1 }

/-- The round of `stackLandingRound` one frame later: the second cow has
landed on the first. -/
def afterStackLanding : Game :=
  finalState (gameLoop 400 400 stackLandingRound)

/-- A round in a 400 by 100 container in which three cows were dropped one
after the other at the left wall and each missed the zone on its first
frame. -/
def thirdMiss : Game :=
  runFrames 400 100 1 (dropCow (spawnNewCow 2
    (runFrames 400 100 1 (dropCow (spawnNewCow 1
      (runFrames 400 100 1 (dropCow freshRound)))))))

/-! ## Repeated smoothing and the shape of the stack -/

/-- `n` smoothing steps of `updateView` in a row with `targetViewOffsetY` held
at `target`. -/
def viewSteps (target : ℚ) : ℕ → ℚ → ℚ
  | 0, offset => offset
  | n + 1, offset => viewSteps target n (smoothStep offset target)

/-- The value of `smoothStep` on an integer offset and an integer target, as
an integer. -/
def smoothStepInt (offset target : ℤ) : ℤ :=
  ⌊(offset : ℚ) + ((target : ℚ) - offset) * (1 / 10)⌋

/-- `viewSteps` on integers. -/
def viewStepsInt (target : ℤ) : ℕ → ℤ → ℤ
  | 0, offset => offset
  | n + 1, offset => viewStepsInt target n (smoothStepInt offset target)

/-- The boxes of two cows intersect (strictly, in both directions). -/
def boxesIntersect (a b : Cow) : Prop :=
  a.x < b.x + b.width ∧ b.x < a.x + a.width ∧ a.y < b.y + b.height ∧ b.y < a.y + a.height

instance (a b : Cow) : Decidable (boxesIntersect a b) := by
  unfold boxesIntersect
  exact instDecidableAnd

/-- A well-formed stack: the boxes of the stacked cows are pairwise
non-intersecting and every stacked cow rests at or above ground level. -/
def WellFormedStack (containerHeight : ℚ) (stacked : List Cow) : Prop :=
  stacked.Pairwise (fun a b => ¬ boxesIntersect a b) ∧
    ∀ c ∈ stacked, c.y + c.height ≤ containerHeight - 20

instance (containerHeight : ℚ) (stacked : List Cow) :
    Decidable (WellFormedStack containerHeight stacked) := by
  unfold WellFormedStack
  exact instDecidableAnd

/-- A spawn, a drop right after it (the crane has not moved) and 40 frames,
enough for the cow to come to rest in a container up to 400 high. -/
def dropAndSettle (containerWidth containerHeight : ℚ) (k : Fin 4) (g : Game) : Game :=
  runFrames containerWidth containerHeight 40 (dropCow (spawnNewCow k g))

/-- A round in a 400 by 390 container (ground level 370): the crane travelled
for 106 frames, then five cows were dropped from `cranePosition = 159`, each
after the one before had landed.  The first landed on the ground, the others
on top of it; the top of the stack is at `y = 160`. -/
def fiveStacked : Game :=
  dropAndSettle 400 390 0 (dropAndSettle 400 390 3 (dropAndSettle 400 390 2
    (dropAndSettle 400 390 1
      (runFrames 400 390 40 (dropCow (runFrames 400 390 106 freshRound))))))

/-- A round in a 480 by 400 container (zone `[190, 290]`): the crane travelled
for 100 frames to `cranePosition = 150`, the first cow was dropped there
(`x = 165`, centre 190, on the edge of the zone) and landed on the ground,
snapped to `x = 215`, `y = 338`; the second cow was dropped from the same
crane position and has been falling for 30 frames (`x = 165`, `y = 329`). -/
def edgeLandingRound : Game :=
  runFrames 480 400 30 (dropCow (spawnNewCow 1
    (runFrames 480 400 40 (dropCow (runFrames 480 400 100 freshRound)))))

/-! ## Basic facts -/

theorem reachable_runFrames (containerWidth containerHeight : ℚ) (n : ℕ) :
    ∀ g : Game, Reachable g → Reachable (runFrames containerWidth containerHeight n g) := by
  induction n with
  | zero => intro g hg; exact hg
  | succ n ih =>
    intro g hg
    exact ih _ (Reachable.step hg (Step.frame containerWidth containerHeight g))

theorem reachable_runTimer (n : ℕ) :
    ∀ g : Game, Reachable g → Reachable (runTimer n g) := by
  induction n with
  | zero => intro g hg; exact hg
  | succ n ih =>
    intro g hg
    exact ih _ (Reachable.step hg (Step.timer g))

theorem reachable_freshRound : Reachable freshRound :=
  Reachable.start "player" 0 initialGame

theorem reachable_twoCowsOneLife : Reachable twoCowsOneLife := by
  unfold twoCowsOneLife
  refine Reachable.step (Reachable.step (Reachable.step (Reachable.step ?_
    (Step.spawn 2 _)) (Step.drop _)) (Step.spawn 3 _)) (Step.drop _)
  refine reachable_runFrames 400 100 1 _ ?_
  refine Reachable.step (Reachable.step ?_ (Step.spawn 1 _)) (Step.drop _)
  refine reachable_runFrames 400 100 1 _ ?_
  exact Reachable.step reachable_freshRound (Step.drop _)

/-! ## The building blocks of one loop iteration -/

theorem eraseIdx_set_same (l : List Cow) (i : ℕ) (c : Cow) :
    (l.set i c).eraseIdx i = l.eraseIdx i := by
  induction l generalizing i with
  | nil => rfl
  | cons a l ih =>
    cases i with
    | zero => rfl
    | succ i => simp [List.set, List.eraseIdx, ih]

theorem scan_fold_spec (cow : Cow) (stacked : List Cow) :
    ∀ acc : ℚ × Bool,
      (stacked.foldl (scanStep cow) acc).1 ≤ acc.1 ∧
      (∀ sc ∈ stacked, overlaps cow sc → (stacked.foldl (scanStep cow) acc).1 ≤ sc.y) ∧
      (stacked.foldl (scanStep cow) acc = acc ∨
        ((stacked.foldl (scanStep cow) acc).2 = true ∧
          (stacked.foldl (scanStep cow) acc).1 < acc.1 ∧
          ∃ sc ∈ stacked, overlaps cow sc ∧ sc.y = (stacked.foldl (scanStep cow) acc).1)) := by
  induction stacked with
  | nil => intro acc; simp
  | cons sc rest ih =>
    intro acc
    obtain ⟨h1, h2, h3⟩ := ih (scanStep cow acc sc)
    have hstep : (scanStep cow acc sc).1 ≤ acc.1 := by
      unfold scanStep
      split_ifs with ha hb
      · exact le_of_lt hb
      · exact le_refl _
      · exact le_refl _
    have hsc : overlaps cow sc → (scanStep cow acc sc).1 ≤ sc.y := by
      intro ho
      unfold scanStep
      rw [if_pos ho]
      split_ifs with hb
      · exact le_refl _
      · exact not_lt.mp hb
    refine ⟨le_trans h1 hstep, ?_, ?_⟩
    · intro d hd ho
      rcases List.mem_cons.mp hd with rfl | hd
      · exact le_trans h1 (hsc ho)
      · exact h2 d hd ho
    · simp only [List.foldl_cons]
      by_cases hchg : scanStep cow acc sc = acc
      · rw [hchg] at h3 ⊢
        rcases h3 with h3 | ⟨h3, h4, d, hd, hdo, hdy⟩
        · exact Or.inl h3
        · exact Or.inr ⟨h3, h4, d, List.mem_cons_of_mem _ hd, hdo, hdy⟩
      · right
        have hnew : overlaps cow sc ∧ sc.y < acc.1 ∧ scanStep cow acc sc = (sc.y, true) := by
          unfold scanStep at hchg ⊢
          split_ifs at hchg ⊢ with ha hb
          · exact ⟨ha, hb, rfl⟩
          · exact absurd rfl hchg
          · exact absurd rfl hchg
        obtain ⟨ho, hlt, heq⟩ := hnew
        rcases h3 with h3 | ⟨h3, h4, d, hd, hdo, hdy⟩
        · rw [h3, heq]
          exact ⟨rfl, hlt, sc, List.mem_cons_self _ _, ho, rfl⟩
        · exact ⟨h3, lt_of_lt_of_le h4 hstep, d, List.mem_cons_of_mem _ hd, hdo, hdy⟩

theorem collisionScan_no_overlap (cow : Cow) (groundLevel : ℚ) (stacked : List Cow)
    (h : ∀ sc ∈ stacked, ¬ overlaps cow sc) :
    collisionScan cow groundLevel stacked = (groundLevel, false) := by
  rcases (scan_fold_spec cow stacked (groundLevel, false)).2.2 with h3 | ⟨_, _, d, hd, ho, _⟩
  · exact h3
  · exact absurd ho (h d hd)

theorem collisionScan_detects (cow : Cow) (groundLevel : ℚ) (stacked : List Cow)
    (h : ∃ sc ∈ stacked, overlaps cow sc ∧ sc.y < groundLevel) :
    (collisionScan cow groundLevel stacked).2 = true ∧
      (collisionScan cow groundLevel stacked).1 < groundLevel ∧
      (∃ sc ∈ stacked, overlaps cow sc ∧ sc.y = (collisionScan cow groundLevel stacked).1) ∧
      ∀ sc ∈ stacked, overlaps cow sc → (collisionScan cow groundLevel stacked).1 ≤ sc.y := by
  obtain ⟨_, h2, h3⟩ := scan_fold_spec cow stacked (groundLevel, false)
  obtain ⟨sc, hsc, ho, hy⟩ := h
  have hlt : (collisionScan cow groundLevel stacked).1 < groundLevel :=
    lt_of_le_of_lt (h2 sc hsc ho) hy
  rcases h3 with h3 | ⟨h3, h4, h5⟩
  · exfalso
    have : (collisionScan cow groundLevel stacked).1 = groundLevel := by
      unfold collisionScan; rw [h3]
    exact absurd this (ne_of_lt hlt)
  · exact ⟨h3, hlt, h5, h2⟩

theorem collisionScan_cases (cow : Cow) (groundLevel : ℚ) (stacked : List Cow) :
    collisionScan cow groundLevel stacked = (groundLevel, false) ∨
      ((collisionScan cow groundLevel stacked).2 = true ∧
        (collisionScan cow groundLevel stacked).1 < groundLevel) := by
  rcases (scan_fold_spec cow stacked (groundLevel, false)).2.2 with h3 | ⟨h3, h4, _⟩
  · exact Or.inl h3
  · exact Or.inr ⟨h3, h4⟩

theorem loseLife_ok (g : Game) (h : 1 ≤ g.lives ∧ g.lives ≤ 4) :
    loseLife g = Except.ok
      { g with lives := g.lives - 1,
               gameState := if g.lives = 1 then GameState.gameover else g.gameState } := by
  have h1 : 0 ≤ g.lives - 1 ∧ 0 ≤ 3 - (g.lives - 1) := by omega
  simp only [loseLife, updateUI, bind, Except.bind, pure, Except.pure, endGame, if_pos h1]
  by_cases h2 : g.lives = 1
  · have : g.lives - 1 ≤ 0 := by omega
    simp [h2]
  · have : ¬ g.lives - 1 ≤ 0 := by omega
    simp [h2, this]

theorem loseLife_error (g : Game) (h : ¬ (1 ≤ g.lives ∧ g.lives ≤ 4)) :
    loseLife g = Except.error { g with lives := g.lives - 1 } := by
  have h1 : ¬ (0 ≤ g.lives - 1 ∧ 0 ≤ 3 - (g.lives - 1)) := by omega
  simp only [loseLife, updateUI, bind, Except.bind, if_neg h1]

theorem finishLanding_ok (containerHeight : ℚ) (g : Game) (h : 0 ≤ g.lives ∧ g.lives ≤ 3) :
    finishLanding containerHeight g = Except.ok
      { updateView containerHeight
          { g with highestStack := max g.highestStack g.stackedCows.length } with
        craneSpeed := speedOfScore g.score } := by
  have h1 : 0 ≤ g.lives ∧ 0 ≤ 3 - g.lives := by omega
  simp only [finishLanding, updateUI, bind, Except.bind, pure, Except.pure, if_pos h1]
  rfl

theorem finishLanding_error (containerHeight : ℚ) (g : Game)
    (h : ¬ (0 ≤ g.lives ∧ g.lives ≤ 3)) :
    finishLanding containerHeight g = Except.error
      { g with highestStack := max g.highestStack g.stackedCows.length } := by
  have h1 : ¬ (0 ≤ g.lives ∧ 0 ≤ 3 - g.lives) := by omega
  simp only [finishLanding, updateUI, bind, Except.bind, if_neg h1]

theorem resolveCow_of_falling (containerWidth containerHeight : ℚ) (index : ℕ) (g : Game)
    (cow0 : Cow) (hget : g.fallingCows.get? index = some cow0) (hland : cow0.landed = false) :
    resolveCow containerWidth containerHeight index g
      = (resolveBranch containerWidth containerHeight index (applyGravity cow0)
            { g with fallingCows := g.fallingCows.set index (applyGravity cow0) }).bind
          (fun r => offScreenCheck containerHeight index r.1 r.2) := by
  simp only [resolveCow, hget, hland, bind]
  simp

theorem split_at_index {α : Type} (l : List α) :
    ∀ (i : ℕ) (a : α), l.get? i = some a →
      ∃ pre post, l = pre ++ a :: post ∧ l.eraseIdx i = pre ++ post ∧ pre.length = i := by
  induction l with
  | nil => intro i a h; simp at h
  | cons b l ih =>
    intro i a h
    cases i with
    | zero =>
      simp only [List.get?_cons_zero, Option.some.injEq] at h
      exact ⟨[], l, by simp [h], by simp, rfl⟩
    | succ i =>
      obtain ⟨pre, post, h1, h2, h3⟩ := ih i a (by simpa using h)
      refine ⟨b :: pre, post, by simp [h1], ?_, by simp [h3]⟩
      simp only [List.eraseIdx_cons_succ, h2, List.cons_append]

theorem resolveCow_miss_final (containerWidth containerHeight : ℚ) (index : ℕ) (g : Game)
    (cow0 : Cow) (hget : g.fallingCows.get? index = some cow0) (hland : cow0.landed = false)
    (hscan : collisionScan (applyGravity cow0) (containerHeight - 20) g.stackedCows
      = (containerHeight - 20, false))
    (hbottom : (applyGravity cow0).y + (applyGravity cow0).height ≥ containerHeight - 20)
    (hzone : ¬ (cowCenter (applyGravity cow0) ≥ stackingZoneLeft containerWidth
          ∧ cowCenter (applyGravity cow0) ≤ stackingZoneRight containerWidth)) :
    finalState (resolveCow containerWidth containerHeight index g)
      = if (1 ≤ g.lives ∧ g.lives ≤ 4) ∧ (applyGravity cow0).y > containerHeight + 50 then
          { g with fallingCows := (g.fallingCows.eraseIdx index).eraseIdx index,
                   lives := g.lives - 2,
                   gameState := if g.lives = 1 ∨ g.lives = 2 then GameState.gameover
                                else g.gameState }
        else
          { g with fallingCows := g.fallingCows.eraseIdx index,
                   lives := g.lives - 1,
                   gameState := if g.lives = 1 then GameState.gameover else g.gameState } := by
  have hland1 : (applyGravity cow0).landed = false := hland
  rw [resolveCow_of_falling containerWidth containerHeight index g cow0 hget hland]
  simp only [resolveBranch, hscan, missGround, hbottom, eraseIdx_set_same, bind, pure,
    Except.pure, hzone]
  simp only [Bool.false_eq_true, false_and, if_false, true_and, if_true]
  by_cases h1 : 1 ≤ g.lives ∧ g.lives ≤ 4
  · rw [loseLife_ok _ (by exact h1)]
    by_cases h2 : (applyGravity cow0).y > containerHeight + 50
    · simp only [Except.bind, offScreenCheck, if_pos h2, hland1, if_true]
      by_cases h3 : 2 ≤ g.lives
      · rw [loseLife_ok _ (by simp only; omega)]
        have e1 : g.lives - 1 - 1 = g.lives - 2 := by omega
        have e2 : (g.lives - 1 = 1) = (g.lives = 2) := by
          apply propext; omega
        simp only [finalState, h1, h2, and_self, if_true, e1, e2]
        by_cases h4 : g.lives = 2
        · have h5 : ¬ g.lives = 1 := by omega
          simp [h4]
        · have h5 : ¬ g.lives = 1 := by omega
          simp [h4, h5]
      · rw [loseLife_error _ (by simp only; omega)]
        have e1 : g.lives - 1 - 1 = g.lives - 2 := by omega
        have h5 : g.lives = 1 := by omega
        simp [finalState, h1, h2, h5]
    · simp only [Except.bind, offScreenCheck, if_neg h2, finalState, h2, and_false, if_false,
        pure, Except.pure]
  · rw [loseLife_error _ (by exact h1)]
    have h5 : ¬ g.lives = 1 := by omega
    simp only [Except.bind, finalState, h1, false_and, if_false, h5]

theorem landing_tail_final (containerHeight : ℚ) (index : ℕ) (cow2 : Cow) (g3 : Game)
    (hl : cow2.landed = true) (r : Game)
    (hr : r = finalState (((finishLanding containerHeight g3).bind
        fun g4 => Except.ok (cow2, g4)).bind
          fun p => offScreenCheck containerHeight index p.1 p.2)) :
    r.stackedCows = g3.stackedCows ∧ r.score = g3.score ∧ r.lives = g3.lives ∧
      r.gameState = g3.gameState ∧ r.timeLeft = g3.timeLeft ∧ r.nextUid = g3.nextUid ∧
      (r.fallingCows = g3.fallingCows ∨ r.fallingCows = g3.fallingCows.eraseIdx index) ∧
      r.highestStack = max g3.highestStack g3.stackedCows.length ∧
      (0 ≤ g3.lives ∧ g3.lives ≤ 3 → r.craneSpeed = speedOfScore g3.score) ∧
      (¬ (0 ≤ g3.lives ∧ g3.lives ≤ 3) → r.craneSpeed = g3.craneSpeed) := by
  subst hr
  by_cases h1 : 0 ≤ g3.lives ∧ g3.lives ≤ 3
  · rw [finishLanding_ok containerHeight g3 h1]
    simp only [Except.bind, offScreenCheck, hl, Bool.true_eq_false, if_false, pure, Except.pure]
    by_cases h2 : cow2.y > containerHeight + 50
    · simp only [if_pos h2, finalState, updateView]
      simp [h1]
    · simp only [if_neg h2, finalState, updateView]
      simp [h1]
  · rw [finishLanding_error containerHeight g3 h1]
    simp only [Except.bind, finalState]
    simp [h1]

theorem resolveCow_stack_final (containerWidth containerHeight : ℚ) (index : ℕ) (g : Game)
    (cow0 : Cow) (hget : g.fallingCows.get? index = some cow0) (hland : cow0.landed = false)
    (hdet : (collisionScan (applyGravity cow0) (containerHeight - 20) g.stackedCows).2 = true)
    (hreach : (applyGravity cow0).y + (applyGravity cow0).height
      ≥ (collisionScan (applyGravity cow0) (containerHeight - 20) g.stackedCows).1)
    (r : Game) (hr : r = finalState (resolveCow containerWidth containerHeight index g)) :
    r.stackedCows = g.stackedCows ++
        [{ applyGravity cow0 with
            y := (collisionScan (applyGravity cow0) (containerHeight - 20) g.stackedCows).1
                  - (applyGravity cow0).height,
            landed := true }] ∧
      r.score = g.score +
        (if cowCenter (applyGravity cow0) ≥ stackingZoneLeft containerWidth
            ∧ cowCenter (applyGravity cow0) ≤ stackingZoneRight containerWidth
          then 15 else 10) ∧
      r.lives = g.lives ∧ r.gameState = g.gameState ∧ r.timeLeft = g.timeLeft ∧
      r.nextUid = g.nextUid ∧
      (r.fallingCows = g.fallingCows.eraseIdx index
        ∨ r.fallingCows = (g.fallingCows.eraseIdx index).eraseIdx index) ∧
      r.highestStack = max g.highestStack (g.stackedCows.length + 1) ∧
      (0 ≤ g.lives ∧ g.lives ≤ 3 → r.craneSpeed = speedOfScore r.score) := by
  rw [resolveCow_of_falling containerWidth containerHeight index g cow0 hget hland] at hr
  simp only [resolveBranch, landOnStack, hdet, hreach, and_self, if_true, bind, pure,
    Except.pure, eraseIdx_set_same] at hr
  by_cases hz : cowCenter (applyGravity cow0) ≥ stackingZoneLeft containerWidth
      ∧ cowCenter (applyGravity cow0) ≤ stackingZoneRight containerWidth
  · simp only [hz, and_self, if_true] at hr ⊢
    obtain ⟨h1, h2, h3, h4, h5, h6, h7, h8, h9, _⟩ :=
      landing_tail_final containerHeight index _ _ rfl r hr
    refine ⟨h1, h2, h3, h4, h5, h6, h7, ?_, ?_⟩
    · rw [h8]; simp
    · intro hl; rw [h9 hl, h2]
  · simp only [hz, if_false] at hr ⊢
    obtain ⟨h1, h2, h3, h4, h5, h6, h7, h8, h9, _⟩ :=
      landing_tail_final containerHeight index _ _ rfl r hr
    refine ⟨h1, h2, h3, h4, h5, h6, h7, ?_, ?_⟩
    · rw [h8]; simp
    · intro hl; rw [h9 hl, h2]

theorem resolveCow_ground_final (containerWidth containerHeight : ℚ) (index : ℕ) (g : Game)
    (cow0 : Cow) (hget : g.fallingCows.get? index = some cow0) (hland : cow0.landed = false)
    (hdet : (collisionScan (applyGravity cow0) (containerHeight - 20) g.stackedCows).2 = false)
    (hreach : (applyGravity cow0).y + (applyGravity cow0).height ≥ containerHeight - 20)
    (hz : cowCenter (applyGravity cow0) ≥ stackingZoneLeft containerWidth
      ∧ cowCenter (applyGravity cow0) ≤ stackingZoneRight containerWidth)
    (r : Game) (hr : r = finalState (resolveCow containerWidth containerHeight index g)) :
    r.stackedCows = g.stackedCows ++
        [{ applyGravity cow0 with
            y := containerHeight - 20 - (applyGravity cow0).height,
            x := containerWidth / 2 - (applyGravity cow0).width / 2,
            landed := true }] ∧
      r.score = g.score + 10 ∧
      r.lives = g.lives ∧ r.gameState = g.gameState ∧ r.timeLeft = g.timeLeft ∧
      r.nextUid = g.nextUid ∧
      (r.fallingCows = g.fallingCows.eraseIdx index
        ∨ r.fallingCows = (g.fallingCows.eraseIdx index).eraseIdx index) ∧
      r.highestStack = max g.highestStack (g.stackedCows.length + 1) ∧
      (0 ≤ g.lives ∧ g.lives ≤ 3 → r.craneSpeed = speedOfScore r.score) := by
  rw [resolveCow_of_falling containerWidth containerHeight index g cow0 hget hland] at hr
  simp only [resolveBranch, landOnGround, hdet, hreach, hz, and_self, if_true, bind, pure,
    Except.pure, eraseIdx_set_same, Bool.false_eq_true, false_and, if_false] at hr
  obtain ⟨h1, h2, h3, h4, h5, h6, h7, h8, h9, _⟩ :=
    landing_tail_final containerHeight index _ _ rfl r hr
  refine ⟨h1, h2, h3, h4, h5, h6, h7, ?_, ?_⟩
  · rw [h8]; simp
  · intro hl; rw [h9 hl, h2]

theorem offScreenCheck_final (containerHeight : ℚ) (index : ℕ) (cow : Cow) (g r : Game)
    (hr : r = finalState (offScreenCheck containerHeight index cow g)) :
    r.stackedCows = g.stackedCows ∧ r.score = g.score ∧ r.highestStack = g.highestStack ∧
      r.craneSpeed = g.craneSpeed ∧ r.timeLeft = g.timeLeft ∧ r.nextUid = g.nextUid ∧
      (r.fallingCows = g.fallingCows ∨ r.fallingCows = g.fallingCows.eraseIdx index) ∧
      r.lives ≤ g.lives ∧ g.lives - 1 ≤ r.lives := by
  subst hr
  unfold offScreenCheck
  by_cases h1 : cow.y > containerHeight + 50
  · rw [if_pos h1]
    by_cases h2 : cow.landed = false
    · simp only [h2, if_true]
      by_cases h3 : 1 ≤ g.lives ∧ g.lives ≤ 4
      · rw [loseLife_ok _ (by exact h3)]
        simp [finalState]
      · rw [loseLife_error _ (by exact h3)]
        simp [finalState]
    · simp [h2, finalState, pure, Except.pure]
  · rw [if_neg h1]
    simp [finalState, pure, Except.pure]

theorem resolveCow_fall_final (containerWidth containerHeight : ℚ) (index : ℕ) (g : Game)
    (cow0 : Cow) (hget : g.fallingCows.get? index = some cow0) (hland : cow0.landed = false)
    (hstack : ¬ ((collisionScan (applyGravity cow0) (containerHeight - 20) g.stackedCows).2
        = true
      ∧ (applyGravity cow0).y + (applyGravity cow0).height
        ≥ (collisionScan (applyGravity cow0) (containerHeight - 20) g.stackedCows).1))
    (hground : ¬ ((collisionScan (applyGravity cow0) (containerHeight - 20) g.stackedCows).2
        = false
      ∧ (applyGravity cow0).y + (applyGravity cow0).height ≥ containerHeight - 20)) :
    finalState (resolveCow containerWidth containerHeight index g)
      = finalState (offScreenCheck containerHeight index (applyGravity cow0)
          { g with fallingCows := g.fallingCows.set index (applyGravity cow0) }) := by
  rw [resolveCow_of_falling containerWidth containerHeight index g cow0 hget hland]
  simp only [resolveBranch, hstack, hground, if_false, pure, Except.pure, Except.bind]

/-! ## The round invariant -/

theorem post_bind {α β : Type} {P : α → Prop} {P2 : β → Prop} {Q : Game → Prop}
    (x : Except Game α) (f : α → Except Game β)
    (hx : Post P Q x) (hf : ∀ a, P a → Post P2 Q (f a)) : Post P2 Q (x.bind f) := by
  cases x with
  | error e => exact hx
  | ok a => exact hf a hx

theorem post_final {P Q : Game → Prop} (x : Except Game Game) (hx : Post P Q x) :
    P (finalState x) ∨ Q (finalState x) := by
  cases x with
  | error e => exact Or.inr hx
  | ok a => exact Or.inl hx

theorem loseLife_loopInv (g : Game) (h : LoopInv g) :
    Post LoopInv RoundInv (loseLife g) := by
  obtain ⟨⟨h1, h2, h3, h4⟩, h5⟩ := h
  by_cases hl : 1 ≤ g.lives ∧ g.lives ≤ 4
  · rw [loseLife_ok g hl]
    simp only [Post, LoopInv, RoundInv]
    refine ⟨⟨by omega, h2, h3, ?_⟩, by omega⟩
    intro hp
    by_cases h1l : g.lives = 1
    · simp [h1l] at hp
    · simp only [h1l, if_false] at hp
      exact ⟨by omega, (h4 hp).2⟩
  · rw [loseLife_error g hl]
    simp only [Post, RoundInv]
    refine ⟨by omega, h2, h3, ?_⟩
    intro hp
    have := (h4 hp).1
    omega

theorem loopInv_congr (g g2 : Game) (h : LoopInv g) (hl : g2.lives = g.lives)
    (hs : g2.score = g.score) (hc : g2.craneSpeed = g.craneSpeed)
    (hg : g2.gameState = g.gameState) (ht : g2.timeLeft = g.timeLeft) : LoopInv g2 := by
  unfold LoopInv RoundInv at *
  rw [hl, hs, hc, hg, ht]
  exact h

theorem offScreenCheck_loopInv (containerHeight : ℚ) (index : ℕ) (cow : Cow) (g : Game)
    (h : LoopInv g) : Post LoopInv RoundInv (offScreenCheck containerHeight index cow g) := by
  unfold offScreenCheck
  split_ifs
  · exact loseLife_loopInv _ (loopInv_congr g _ h rfl rfl rfl rfl rfl)
  · exact loopInv_congr g _ h rfl rfl rfl rfl rfl
  · exact h

theorem finishLanding_loopInv (containerHeight : ℚ) (g g0 : Game) (h : LoopInv g0)
    (hl : g.lives = g0.lives) (hs : g0.score ≤ g.score)
    (hg : g.gameState = g0.gameState) (ht : g.timeLeft = g0.timeLeft) :
    Post LoopInv RoundInv (finishLanding containerHeight g) := by
  obtain ⟨⟨h1, h2, h3, h4⟩, h5⟩ := h
  rw [finishLanding_ok containerHeight g (by omega)]
  simp only [Post, LoopInv, RoundInv, updateView]
  rw [hl, hg, ht]
  exact ⟨⟨h1, by omega, trivial, h4⟩, h5⟩

theorem resolveBranch_loopInv (containerWidth containerHeight : ℚ) (index : ℕ) (cow : Cow)
    (g : Game) (h : LoopInv g) :
    Post (fun p : Cow × Game => LoopInv p.2) RoundInv
      (resolveBranch containerWidth containerHeight index cow g) := by
  unfold resolveBranch
  simp only
  split_ifs
  · unfold landOnStack
    simp only [bind]
    refine post_bind _ _ (P := LoopInv) ?_ (fun a ha => ha)
    split_ifs
    · exact finishLanding_loopInv containerHeight _ g h rfl (by simp) rfl rfl
    · exact finishLanding_loopInv containerHeight _ g h rfl (by simp) rfl rfl
  · unfold landOnGround
    simp only [bind]
    refine post_bind _ _ (P := LoopInv) ?_ (fun a ha => ha)
    exact finishLanding_loopInv containerHeight _ g h rfl (by simp) rfl rfl
  · unfold missGround
    simp only [bind]
    refine post_bind _ _ (P := LoopInv) ?_ (fun a ha => ha)
    exact loseLife_loopInv _ (loopInv_congr g _ h rfl rfl rfl rfl rfl)
  · exact h

theorem resolveCow_loopInv (containerWidth containerHeight : ℚ) (index : ℕ) (g : Game)
    (h : LoopInv g) :
    Post LoopInv RoundInv (resolveCow containerWidth containerHeight index g) := by
  unfold resolveCow
  split
  · exact h.1
  · split_ifs
    · exact h
    · simp only [bind]
      refine post_bind _ _ (resolveBranch_loopInv containerWidth containerHeight index _ _
        (loopInv_congr g _ h rfl rfl rfl rfl rfl)) ?_
      intro p hp
      exact offScreenCheck_loopInv containerHeight index p.1 p.2 hp

theorem fallingLoop_loopInv (containerWidth containerHeight : ℚ) (n : ℕ) :
    ∀ g : Game, LoopInv g →
      Post LoopInv RoundInv (fallingLoop containerWidth containerHeight n g) := by
  induction n with
  | zero => intro g h; exact h
  | succ n ih =>
    intro g h
    unfold fallingLoop
    simp only [bind]
    exact post_bind _ _ (resolveCow_loopInv containerWidth containerHeight n g h) ih

theorem moveCrane_fields (containerWidth : ℚ) (g : Game) :
    (moveCrane containerWidth g).lives = g.lives ∧
      (moveCrane containerWidth g).score = g.score ∧
      (moveCrane containerWidth g).craneSpeed = g.craneSpeed ∧
      (moveCrane containerWidth g).gameState = g.gameState ∧
      (moveCrane containerWidth g).timeLeft = g.timeLeft ∧
      (moveCrane containerWidth g).fallingCows = g.fallingCows ∧
      (moveCrane containerWidth g).stackedCows = g.stackedCows ∧
      (moveCrane containerWidth g).nextUid = g.nextUid := by
  simp only [moveCrane]
  split_ifs <;> simp

theorem gameLoop_roundInv (containerWidth containerHeight : ℚ) (g : Game) (h : RoundInv g) :
    RoundInv (finalState (gameLoop containerWidth containerHeight g)) := by
  unfold gameLoop
  split_ifs with hp
  · exact h
  · have hp2 : g.gameState = GameState.playing := by
      cases hgs : g.gameState <;> simp_all
    have hm : LoopInv (moveCrane containerWidth g) := by
      obtain ⟨m1, m2, m3, m4, m5, _⟩ := moveCrane_fields containerWidth g
      exact loopInv_congr g _ ⟨h, le_of_lt (h.2.2.2 hp2).1⟩ m1 m2 m3 m4 m5
    rcases post_final _ (fallingLoop_loopInv containerWidth containerHeight _ _ hm) with h2 | h2
    · exact h2.1
    · exact h2

theorem timerTick_roundInv (g : Game) (h : RoundInv g) :
    RoundInv (finalState (timerTick g)) := by
  obtain ⟨h1, h2, h3, h4⟩ := h
  unfold timerTick
  split_ifs with hp
  · exact ⟨h1, h2, h3, h4⟩
  · have hp2 : g.gameState = GameState.playing := by
      cases hgs : g.gameState <;> simp_all
    obtain ⟨h5, h6⟩ := h4 hp2
    have hu : 0 ≤ g.lives ∧ 0 ≤ 3 - g.lives := by omega
    simp only [updateUI, bind, Except.bind, pure, Except.pure, if_pos hu, endGame]
    by_cases ht : g.timeLeft - 1 ≤ 0
    · simp only [if_pos ht, finalState, RoundInv]
      exact ⟨h1, h2, h3, by simp⟩
    · simp only [if_neg ht, finalState, RoundInv]
      exact ⟨h1, h2, h3, fun _ => ⟨h5, by omega⟩⟩

theorem step_roundInv {g g2 : Game} (hs : Step g g2) (h : RoundInv g) : RoundInv g2 := by
  cases hs with
  | drop =>
    obtain ⟨h1, h2, h3, h4⟩ := h
    unfold dropCow
    split_ifs
    · exact ⟨h1, h2, h3, h4⟩
    · split
      · exact ⟨h1, h2, h3, h4⟩
      · exact ⟨h1, h2, h3, h4⟩
  | spawn k =>
    obtain ⟨h1, h2, h3, h4⟩ := h
    unfold spawnNewCow
    split_ifs
    · exact ⟨h1, h2, h3, h4⟩
    · exact ⟨h1, h2, h3, h4⟩
  | frame W H => exact gameLoop_roundInv W H g h
  | timer => exact timerTick_roundInv g h

theorem reachable_roundInv (g : Game) (h : Reachable g) : RoundInv g := by
  induction h with
  | start username k g =>
    unfold startGame spawnNewCow
    simp only [RoundInv, speedOfScore]
    norm_num
  | step _ hs ih => exact step_roundInv hs ih
theorem timerTick_playing (g : Game) (hp : g.gameState = GameState.playing)
    (hl : 0 < g.lives ∧ g.lives ≤ 3) :
    timerTick g = Except.ok
      { g with timeLeft := g.timeLeft - 1, timeSurvived := 60 - (g.timeLeft - 1),
               gameState := if g.timeLeft - 1 ≤ 0 then GameState.gameover
                            else GameState.playing } := by
  have hu : 0 ≤ g.lives ∧ 0 ≤ 3 - g.lives := by omega
  have hn : ¬ g.gameState ≠ GameState.playing := by simp [hp]
  simp only [timerTick, if_neg hn, updateUI, bind, Except.bind, pure, Except.pure, if_pos hu,
    endGame]
  by_cases ht : g.timeLeft - 1 ≤ 0
  · simp only [if_pos ht]
  · simp only [if_neg ht, hp]

theorem runTimer_countdown (n : ℕ) :
    ∀ g : Game, g.gameState = GameState.playing → 0 < g.lives ∧ g.lives ≤ 3 →
      (n : ℤ) < g.timeLeft →
      (runTimer n g).gameState = GameState.playing ∧ (runTimer n g).lives = g.lives ∧
        (runTimer n g).timeLeft = g.timeLeft - n ∧
        (0 < n → (runTimer n g).timeSurvived = 60 - (g.timeLeft - n)) := by
  induction n with
  | zero => intro g hp _ _; simp [runTimer, hp]
  | succ n ih =>
    intro g hp hl ht
    have hnot : ¬ g.timeLeft - 1 ≤ 0 := by push_cast at ht; omega
    unfold runTimer
    rw [timerTick_playing g hp hl]
    simp only [finalState, if_neg hnot]
    obtain ⟨h1, h2, h3, h4⟩ := ih
      { g with timeLeft := g.timeLeft - 1, timeSurvived := 60 - (g.timeLeft - 1),
               gameState := GameState.playing } rfl hl (by push_cast at ht; simp only; omega)
    refine ⟨h1, h2, ?_, ?_⟩
    · rw [h3]; push_cast; omega
    · intro _
      rcases Nat.eq_zero_or_pos n with hn | hn
      · subst hn
        simp [runTimer]
      · rw [h4 hn]; push_cast; omega

/-! ## The invariant of the two collections -/

theorem split_set_at_index {α : Type} (l : List α) :
    ∀ (i : ℕ) (a : α), l.get? i = some a →
      ∃ pre post, l = pre ++ a :: post ∧ l.eraseIdx i = pre ++ post ∧
        ∀ b : α, l.set i b = pre ++ b :: post := by
  induction l with
  | nil => intro i a h; simp at h
  | cons b l ih =>
    intro i a h
    cases i with
    | zero =>
      simp only [List.get?_cons_zero, Option.some.injEq] at h
      exact ⟨[], l, by simp [h], by simp, fun _ => by simp⟩
    | succ i =>
      obtain ⟨pre, post, h1, h2, h3⟩ := ih i a (by simpa using h)
      refine ⟨b :: pre, post, by simp [h1], ?_, fun c => by simp [h3]⟩
      simp only [List.eraseIdx_cons_succ, h2, List.cons_append]

theorem frameRel_refl (g : Game) : FrameRel g g :=
  ⟨List.prefix_refl _, fun _ hd => Or.inl hd, fun _ hu => hu, rfl⟩

theorem cows_congr (g0 g g2 : Game) (h : CowsInv g ∧ FrameRel g0 g)
    (hf : g2.fallingCows = g.fallingCows) (hs : g2.stackedCows = g.stackedCows)
    (hn : g2.nextUid = g.nextUid) : CowsInv g2 ∧ FrameRel g0 g2 := by
  unfold CowsInv FrameRel at *
  rw [hf, hs, hn]
  exact h

theorem cows_erase (g0 g g2 : Game) (index : ℕ) (h : CowsInv g ∧ FrameRel g0 g)
    (hf : g2.fallingCows = g.fallingCows.eraseIdx index)
    (hs : g2.stackedCows = g.stackedCows)
    (hn : g2.nextUid = g.nextUid) : CowsInv g2 ∧ FrameRel g0 g2 := by
  obtain ⟨⟨c1, c2, c3, c4⟩, r1, r2, r3, r4⟩ := h
  have hsub : ∀ c ∈ g2.fallingCows, c ∈ g.fallingCows := by
    intro c hc; rw [hf] at hc; exact List.mem_of_mem_eraseIdx hc
  have hsubu : ∀ u ∈ g2.fallingCows.map Cow.uid, u ∈ g.fallingCows.map Cow.uid := by
    intro u hu
    obtain ⟨c, hc, hcu⟩ := List.mem_map.mp hu
    exact List.mem_map.mpr ⟨c, hsub c hc, hcu⟩
  have hsl : (g2.fallingCows.map Cow.uid ++ g2.stackedCows.map Cow.uid).Sublist
      (g.fallingCows.map Cow.uid ++ g.stackedCows.map Cow.uid) := by
    rw [hf, hs]
    exact List.Sublist.append ((List.eraseIdx_sublist _ _).map _) (List.Sublist.refl _)
  refine ⟨⟨fun c hc => c1 c (hsub c hc), by rw [hs]; exact c2, c3.sublist hsl, ?_⟩,
    by rw [hs]; exact r1, by rw [hs]; exact r2, fun u hu => r3 u (hsubu u hu),
    by rw [hn]; exact r4⟩
  intro u hu
  rw [hn]
  exact c4 u (hsl.subset hu)

theorem cows_set (g0 g g2 : Game) (index : ℕ) (c cnew : Cow)
    (h : CowsInv g ∧ FrameRel g0 g) (hget : g.fallingCows.get? index = some c)
    (hu : cnew.uid = c.uid) (hl : cnew.landed = c.landed)
    (hf : g2.fallingCows = g.fallingCows.set index cnew)
    (hs : g2.stackedCows = g.stackedCows)
    (hn : g2.nextUid = g.nextUid) : CowsInv g2 ∧ FrameRel g0 g2 := by
  obtain ⟨⟨c1, c2, c3, c4⟩, r1, r2, r3, r4⟩ := h
  obtain ⟨pre, post, e1, _, e3⟩ := split_set_at_index g.fallingCows index c hget
  have hmap : g2.fallingCows.map Cow.uid = g.fallingCows.map Cow.uid := by
    rw [hf, e3 cnew, e1]
    simp [hu]
  refine ⟨⟨?_, by rw [hs]; exact c2, by rw [hmap, hs]; exact c3,
      by rw [hmap, hs, hn]; exact c4⟩,
    by rw [hs]; exact r1, by rw [hs]; exact r2, by rw [hmap]; exact r3,
    by rw [hn]; exact r4⟩
  intro d hd
  rw [hf, e3 cnew] at hd
  rw [e1] at c1
  rcases List.mem_append.mp hd with hd | hd
  · exact c1 d (List.mem_append_left _ hd)
  · rcases List.mem_cons.mp hd with rfl | hd
    · rw [hl]; exact c1 c (by simp)
    · exact c1 d (by simp [hd])

theorem cows_land (g0 g g2 : Game) (index : ℕ) (c cnew : Cow)
    (h : CowsInv g ∧ FrameRel g0 g) (hget : g.fallingCows.get? index = some c)
    (hu : cnew.uid = c.uid) (hl : cnew.landed = true)
    (hf : g2.fallingCows = g.fallingCows.eraseIdx index)
    (hs : g2.stackedCows = g.stackedCows ++ [cnew])
    (hn : g2.nextUid = g.nextUid) : CowsInv g2 ∧ FrameRel g0 g2 := by
  obtain ⟨⟨c1, c2, c3, c4⟩, r1, r2, r3, r4⟩ := h
  obtain ⟨pre, post, e1, e2, _⟩ := split_set_at_index g.fallingCows index c hget
  have hperm : (g2.fallingCows.map Cow.uid ++ g2.stackedCows.map Cow.uid).Perm
      (g.fallingCows.map Cow.uid ++ g.stackedCows.map Cow.uid) := by
    rw [hf, hs, e2, e1]
    simp only [List.map_append, List.map_cons, List.map_nil, hu, List.append_assoc]
    refine List.Perm.append_left _ ?_
    rw [← List.append_assoc]
    exact List.perm_append_singleton _ _
  have hcu : c.uid ∈ g.fallingCows.map Cow.uid := by
    rw [e1]; simp
  refine ⟨⟨?_, ?_, hperm.nodup_iff.mpr c3, ?_⟩, ?_, ?_, ?_, by rw [hn]; exact r4⟩
  · intro d hd
    rw [hf] at hd
    exact c1 d (List.mem_of_mem_eraseIdx hd)
  · intro d hd
    rw [hs] at hd
    rcases List.mem_append.mp hd with hd | hd
    · exact c2 d hd
    · rw [List.mem_singleton.mp hd]; exact hl
  · intro u hu2
    rw [hn]
    exact c4 u (hperm.subset hu2)
  · rw [hs]
    exact List.IsPrefix.trans r1 (List.prefix_append _ _)
  · intro d hd
    rw [hs] at hd
    rcases List.mem_append.mp hd with hd | hd
    · exact r2 d hd
    · rw [List.mem_singleton.mp hd, hu]
      exact Or.inr (r3 _ hcu)
  · intro u hu2
    rw [hf] at hu2
    obtain ⟨d, hd, hdu⟩ := List.mem_map.mp hu2
    exact r3 u (List.mem_map.mpr ⟨d, List.mem_of_mem_eraseIdx hd, hdu⟩)
theorem loseLife_cows (g0 g : Game) (h : CowsRel g0 g) :
    Post (CowsRel g0) (CowsRel g0) (loseLife g) := by
  by_cases hl : 1 ≤ g.lives ∧ g.lives ≤ 4
  · rw [loseLife_ok g hl]
    exact cows_congr g0 g _ h rfl rfl rfl
  · rw [loseLife_error g hl]
    exact cows_congr g0 g _ h rfl rfl rfl

theorem finishLanding_cows (containerHeight : ℚ) (g0 g : Game) (h : CowsRel g0 g) :
    Post (CowsRel g0) (CowsRel g0) (finishLanding containerHeight g) := by
  by_cases hl : 0 ≤ g.lives ∧ g.lives ≤ 3
  · rw [finishLanding_ok containerHeight g hl]
    exact cows_congr g0 g _ h rfl rfl rfl
  · rw [finishLanding_error containerHeight g hl]
    exact cows_congr g0 g _ h rfl rfl rfl

theorem offScreenCheck_cows (containerHeight : ℚ) (index : ℕ) (cow : Cow) (g0 g : Game)
    (h : CowsRel g0 g) :
    Post (CowsRel g0) (CowsRel g0) (offScreenCheck containerHeight index cow g) := by
  unfold offScreenCheck
  split_ifs
  · exact loseLife_cows g0 _ (cows_erase g0 g _ index h rfl rfl rfl)
  · exact cows_erase g0 g _ index h rfl rfl rfl
  · exact h

theorem resolveBranch_cows (containerWidth containerHeight : ℚ) (index : ℕ) (cow : Cow)
    (g0 g : Game) (h : CowsRel g0 g) (hget : g.fallingCows.get? index = some cow) :
    Post (fun p : Cow × Game => CowsRel g0 p.2) (CowsRel g0)
      (resolveBranch containerWidth containerHeight index cow g) := by
  unfold resolveBranch
  simp only
  split_ifs
  · unfold landOnStack
    simp only [bind]
    refine post_bind _ _ (P := CowsRel g0) ?_ (fun a ha => ha)
    split_ifs
    · exact finishLanding_cows containerHeight g0 _
        (cows_land g0 g _ index cow
          { cow with y := (collisionScan cow (containerHeight - 20) g.stackedCows).1
                          - cow.height, landed := true }
          h hget rfl rfl rfl rfl rfl)
    · exact finishLanding_cows containerHeight g0 _
        (cows_land g0 g _ index cow
          { cow with y := (collisionScan cow (containerHeight - 20) g.stackedCows).1
                          - cow.height, landed := true }
          h hget rfl rfl rfl rfl rfl)
  · unfold landOnGround
    simp only [bind]
    refine post_bind _ _ (P := CowsRel g0) ?_ (fun a ha => ha)
    exact finishLanding_cows containerHeight g0 _
      (cows_land g0 g _ index cow
        { cow with y := containerHeight - 20 - cow.height,
                   x := containerWidth / 2 - cow.width / 2, landed := true }
        h hget rfl rfl rfl rfl rfl)
  · unfold missGround
    simp only [bind]
    refine post_bind _ _ (P := CowsRel g0) ?_ (fun a ha => ha)
    exact loseLife_cows g0 _ (cows_erase g0 g _ index h rfl rfl rfl)
  · exact h

theorem resolveCow_cows (containerWidth containerHeight : ℚ) (index : ℕ) (g0 g : Game)
    (h : CowsRel g0 g) :
    Post (CowsRel g0) (CowsRel g0) (resolveCow containerWidth containerHeight index g) := by
  unfold resolveCow
  split
  · exact h
  · rename_i cow0 hget
    split_ifs
    · exact h
    · simp only [bind]
      have hlt : index < g.fallingCows.length := by
        obtain ⟨hlt, _⟩ := List.get?_eq_some.mp hget
        exact hlt
      refine post_bind _ _ (resolveBranch_cows containerWidth containerHeight index _ g0 _
        (cows_set g0 g _ index cow0 (applyGravity cow0) h hget rfl rfl rfl rfl rfl) ?_) ?_
      · simp [List.get?_eq_getElem?, hlt]
      · intro p hp
        exact offScreenCheck_cows containerHeight index p.1 g0 p.2 hp

theorem fallingLoop_cows (containerWidth containerHeight : ℚ) (g0 : Game) (n : ℕ) :
    ∀ g : Game, CowsRel g0 g →
      Post (CowsRel g0) (CowsRel g0) (fallingLoop containerWidth containerHeight n g) := by
  induction n with
  | zero => intro g h; exact h
  | succ n ih =>
    intro g h
    unfold fallingLoop
    simp only [bind]
    exact post_bind _ _ (resolveCow_cows containerWidth containerHeight n g0 g h) ih

theorem gameLoop_cows (containerWidth containerHeight : ℚ) (g : Game) (h : CowsInv g) :
    CowsRel g (finalState (gameLoop containerWidth containerHeight g)) := by
  unfold gameLoop
  split_ifs
  · exact ⟨h, frameRel_refl g⟩
  · obtain ⟨_, _, _, _, _, m6, m7, m8⟩ := moveCrane_fields containerWidth g
    have hm : CowsRel g (moveCrane containerWidth g) :=
      cows_congr g g _ ⟨h, frameRel_refl g⟩ m6 m7 m8
    rcases post_final _ (fallingLoop_cows containerWidth containerHeight g _ _ hm) with h2 | h2
    · exact h2
    · exact h2

theorem cows_drop (g g2 : Game) (cow : Cow) (h : CowsInv g) (hu : cow.uid = g.nextUid)
    (hl : cow.landed = false) (hf : g2.fallingCows = g.fallingCows ++ [cow])
    (hs : g2.stackedCows = g.stackedCows) (hn : g2.nextUid = g.nextUid + 1) : CowsInv g2 := by
  obtain ⟨c1, c2, c3, c4⟩ := h
  have hperm : (g2.fallingCows.map Cow.uid ++ g2.stackedCows.map Cow.uid).Perm
      (g.nextUid :: (g.fallingCows.map Cow.uid ++ g.stackedCows.map Cow.uid)) := by
    rw [hf, hs]
    simp only [List.map_append, List.map_cons, List.map_nil, List.append_assoc,
      List.singleton_append, hu]
    exact List.perm_middle
  refine ⟨?_, by rw [hs]; exact c2, ?_, ?_⟩
  · intro c hc
    rw [hf] at hc
    rcases List.mem_append.mp hc with hc | hc
    · exact c1 c hc
    · rw [List.mem_singleton.mp hc]; exact hl
  · refine hperm.nodup_iff.mpr (List.nodup_cons.mpr ⟨?_, c3⟩)
    intro hmem
    exact absurd (c4 _ hmem) (lt_irrefl _)
  · intro u hu2
    rw [hn]
    rcases List.mem_cons.mp (hperm.subset hu2) with hu3 | hu3
    · rw [hu3]; exact Nat.lt_succ_self _
    · exact Nat.lt_succ_of_lt (c4 u hu3)

theorem timerTick_cows (g : Game) :
    (finalState (timerTick g)).fallingCows = g.fallingCows ∧
      (finalState (timerTick g)).stackedCows = g.stackedCows ∧
      (finalState (timerTick g)).nextUid = g.nextUid := by
  unfold timerTick
  by_cases hp : g.gameState ≠ GameState.playing
  · rw [if_pos hp]; exact ⟨rfl, rfl, rfl⟩
  · rw [if_neg hp]
    simp only [updateUI, bind, Except.bind, pure, Except.pure]
    by_cases hu : 0 ≤ g.lives ∧ 0 ≤ 3 - g.lives
    · simp only [if_pos hu]
      by_cases ht : g.timeLeft - 1 ≤ 0
      · simp only [if_pos ht]; exact ⟨rfl, rfl, rfl⟩
      · simp only [if_neg ht]; exact ⟨rfl, rfl, rfl⟩
    · simp only [if_neg hu]; exact ⟨rfl, rfl, rfl⟩

theorem step_cows {g g2 : Game} (hs : Step g g2) (h : CowsInv g) :
    CowsInv g2 ∧ g.stackedCows <+: g2.stackedCows := by
  cases hs with
  | drop =>
    unfold dropCow
    split_ifs
    · exact ⟨h, List.prefix_refl _⟩
    · split
      · exact ⟨h, List.prefix_refl _⟩
      · rename_i t _
        exact ⟨cows_drop g _
          { x := g.cranePosition + 15, y := 50, width := 50, height := 42, vy := 0,
            color := t.color, imageUrl := t.imageUrl, id := t.id, landed := false,
            uid := g.nextUid } h rfl rfl rfl rfl rfl, List.prefix_refl _⟩
  | spawn k =>
    unfold spawnNewCow
    split_ifs
    · exact ⟨h, List.prefix_refl _⟩
    · exact ⟨h, List.prefix_refl _⟩
  | frame W H =>
    obtain ⟨h1, h2, _⟩ := gameLoop_cows W H g h
    exact ⟨h1, h2⟩
  | timer =>
    obtain ⟨t1, t2, t3⟩ := timerTick_cows g
    refine ⟨(cows_congr g g _ ⟨h, frameRel_refl g⟩ t1 t2 t3).1, ?_⟩
    rw [t2]

theorem reachable_cowsInv (g : Game) (h : Reachable g) : CowsInv g := by
  induction h with
  | start username k g =>
    unfold startGame spawnNewCow
    split_ifs <;> simp [CowsInv]
  | step _ hs ih => exact (step_cows hs ih).1
theorem reachable_steps {g g2 : Game} (hr : Reachable g)
    (hs : Relation.ReflTransGen Step g g2) :
    Reachable g2 ∧ g.stackedCows <+: g2.stackedCows := by
  induction hs with
  | refl => exact ⟨hr, List.prefix_refl _⟩
  | tail _ hbc ih =>
    exact ⟨Reachable.step ih.1 hbc,
      List.IsPrefix.trans ih.2 (step_cows hbc (reachable_cowsInv _ ih.1)).2⟩

theorem cowsInv_disjoint (g : Game) (h : CowsInv g) :
    ∀ d ∈ g.stackedCows, d.uid ∉ g.fallingCows.map Cow.uid := by
  intro d hd hmem
  have hdis := (List.nodup_append.mp h.2.2.1).2.2
  exact hdis hmem (List.mem_map.mpr ⟨d, hd, rfl⟩)

/-! ## C1: the range of `lives` -/

/-- C1 (the code at the failing input): `twoCowsOneLife` is a state of a round
with `lives = 1` and two falling cows; one animation frame in the 400 by 100
container resolves both as misses, `loseLife` runs twice in that frame and the
frame ends with `lives = -1`, outside `0..3`. -/
theorem lives_negative_after_two_misses_in_one_frame :
    Reachable twoCowsOneLife ∧ twoCowsOneLife.lives = 1 ∧
      twoCowsOneLife.fallingCows.length = 2 ∧
      Reachable (finalState (gameLoop 400 100 twoCowsOneLife)) ∧
      (finalState (gameLoop 400 100 twoCowsOneLife)).lives = -1 := by
  refine ⟨reachable_twoCowsOneLife, by decide!, by decide!, ?_, by decide!⟩
  exact Reachable.step reachable_twoCowsOneLife (Step.frame 400 100 _)

/-! ## C2: the score of a landing -/

/-- C2 (counterexample): in `groundLandingRound` the falling cow has its
centre at 199, inside the band `[150, 250]` that the code tests for the bonus;
the next frame accepts it as a ground landing (it is the one stacked cow
afterwards) and the score rises by 10, not by 15. -/
theorem ground_landing_in_band_scores_ten :
    Reachable groundLandingRound ∧
      groundLandingRound.fallingCows = [{ firstCow with x := 174, y := 329, vy := 18 }] ∧
      groundLandingRound.stackedCows = [] ∧
      cowCenter (applyGravity { firstCow with x := 174, y := 329, vy := 18 }) = 199 ∧
      stackingZoneLeft 400 = 150 ∧ stackingZoneRight 400 = 250 ∧
      (finalState (updateFallingCows 400 400 groundLandingRound)).stackedCows
        = [{ firstCow with x := 175, y := 338, vy := 93 / 5, landed := true }] ∧
      (finalState (updateFallingCows 400 400 groundLandingRound)).score
        = groundLandingRound.score + 10 ∧
      (finalState (updateFallingCows 400 400 groundLandingRound)).score
        ≠ groundLandingRound.score + 15 := by
  refine ⟨?_, by decide!, by decide!, by decide!, by decide!, by decide!, by decide!,
    by decide!, by decide!⟩
  refine reachable_runFrames 400 400 30 _ (Reachable.step ?_ (Step.drop _))
  exact reachable_runFrames 400 400 106 _ reachable_freshRound

/-- C2 (amended): one iteration of the loop of `updateFallingCows` on a falling
cow changes the score as follows.  A stack landing (a collision was detected
and the bottom edge reached `highestCollisionY`) adds 15 when the centre
`x + width / 2` lies in the band `[W/2 - 50, W/2 + 50]` and 10 otherwise; a
ground landing (no collision detected, bottom edge at ground level, centre in
that same band) adds 10; nothing else changes the score.  These two cases are
exactly the ones in which a cow is appended to `stackedCows`. -/
theorem landing_score_rule (containerWidth containerHeight : ℚ) (index : ℕ) (g : Game)
    (cow0 : Cow) (hget : g.fallingCows.get? index = some cow0) (hland : cow0.landed = false) :
    (finalState (resolveCow containerWidth containerHeight index g)).score = g.score +
      (if (collisionScan (applyGravity cow0) (containerHeight - 20) g.stackedCows).2 = true
          ∧ (applyGravity cow0).y + (applyGravity cow0).height
            ≥ (collisionScan (applyGravity cow0) (containerHeight - 20) g.stackedCows).1 then
        (if containerWidth / 2 - 50 ≤ cowCenter (applyGravity cow0)
            ∧ cowCenter (applyGravity cow0) ≤ containerWidth / 2 + 50 then 15 else 10)
      else if (collisionScan (applyGravity cow0) (containerHeight - 20) g.stackedCows).2
            = false
          ∧ (applyGravity cow0).y + (applyGravity cow0).height ≥ containerHeight - 20
          ∧ (containerWidth / 2 - 50 ≤ cowCenter (applyGravity cow0)
            ∧ cowCenter (applyGravity cow0) ≤ containerWidth / 2 + 50) then 10
      else 0) ∧
    (finalState (resolveCow containerWidth containerHeight index g)).stackedCows.length
      = g.stackedCows.length +
      (if ((collisionScan (applyGravity cow0) (containerHeight - 20) g.stackedCows).2 = true
          ∧ (applyGravity cow0).y + (applyGravity cow0).height
            ≥ (collisionScan (applyGravity cow0) (containerHeight - 20) g.stackedCows).1)
        ∨ ((collisionScan (applyGravity cow0) (containerHeight - 20) g.stackedCows).2 = false
          ∧ (applyGravity cow0).y + (applyGravity cow0).height ≥ containerHeight - 20
          ∧ (containerWidth / 2 - 50 ≤ cowCenter (applyGravity cow0)
            ∧ cowCenter (applyGravity cow0) ≤ containerWidth / 2 + 50)) then 1 else 0) := by
  have hband : (containerWidth / 2 - 50 ≤ cowCenter (applyGravity cow0)
        ∧ cowCenter (applyGravity cow0) ≤ containerWidth / 2 + 50)
      ↔ (cowCenter (applyGravity cow0) ≥ stackingZoneLeft containerWidth
        ∧ cowCenter (applyGravity cow0) ≤ stackingZoneRight containerWidth) := by
    unfold stackingZoneLeft stackingZoneRight
    constructor
    · intro h; exact ⟨by linarith [h.1], by linarith [h.2]⟩
    · intro h; exact ⟨by linarith [h.1], by linarith [h.2]⟩
  by_cases hs : (collisionScan (applyGravity cow0) (containerHeight - 20) g.stackedCows).2
        = true
      ∧ (applyGravity cow0).y + (applyGravity cow0).height
        ≥ (collisionScan (applyGravity cow0) (containerHeight - 20) g.stackedCows).1
  · obtain ⟨h1, h2, _⟩ := resolveCow_stack_final containerWidth containerHeight index g cow0
      hget hland hs.1 hs.2 _ rfl
    rw [h1, h2, if_pos hs, if_pos (Or.inl hs)]
    refine ⟨?_, by simp⟩
    by_cases hb : containerWidth / 2 - 50 ≤ cowCenter (applyGravity cow0)
        ∧ cowCenter (applyGravity cow0) ≤ containerWidth / 2 + 50
    · rw [if_pos hb, if_pos (hband.mp hb)]
    · rw [if_neg hb, if_neg (fun h => hb (hband.mpr h))]
  · rw [if_neg hs]
    by_cases hg : (collisionScan (applyGravity cow0) (containerHeight - 20) g.stackedCows).2
          = false
        ∧ (applyGravity cow0).y + (applyGravity cow0).height ≥ containerHeight - 20
    · by_cases hb : containerWidth / 2 - 50 ≤ cowCenter (applyGravity cow0)
          ∧ cowCenter (applyGravity cow0) ≤ containerWidth / 2 + 50
      · obtain ⟨h1, h2, _⟩ := resolveCow_ground_final containerWidth containerHeight index g
          cow0 hget hland hg.1 hg.2 (hband.mp hb) _ rfl
        rw [h1, h2, if_pos ⟨hg.1, hg.2, hb⟩, if_pos (Or.inr ⟨hg.1, hg.2, hb⟩)]
        simp
      · have hscan : collisionScan (applyGravity cow0) (containerHeight - 20) g.stackedCows
            = (containerHeight - 20, false) := by
          rcases collisionScan_cases (applyGravity cow0) (containerHeight - 20)
            g.stackedCows with h | h
          · exact h
          · rw [hg.1] at h; exact absurd h.1 (by simp)
        have hc1 : ¬ ((collisionScan (applyGravity cow0) (containerHeight - 20)
              g.stackedCows).2 = false
            ∧ (applyGravity cow0).y + (applyGravity cow0).height ≥ containerHeight - 20
            ∧ (containerWidth / 2 - 50 ≤ cowCenter (applyGravity cow0)
              ∧ cowCenter (applyGravity cow0) ≤ containerWidth / 2 + 50)) :=
          fun h => hb h.2.2
        rw [resolveCow_miss_final containerWidth containerHeight index g cow0 hget hland
          hscan hg.2 (fun h => hb (hband.mpr h))]
        simp only [if_neg hc1, if_neg (fun h => Or.elim h hs hc1), add_zero]
        by_cases hm : (1 ≤ g.lives ∧ g.lives ≤ 4)
            ∧ (applyGravity cow0).y > containerHeight + 50
        · rw [if_pos hm]; exact ⟨rfl, rfl⟩
        · rw [if_neg hm]; exact ⟨rfl, rfl⟩
    · rw [resolveCow_fall_final containerWidth containerHeight index g cow0 hget hland hs hg]
      obtain ⟨h1, h2, _⟩ := offScreenCheck_final containerHeight index (applyGravity cow0)
        _ _ rfl
      have hc1 : ¬ ((collisionScan (applyGravity cow0) (containerHeight - 20)
            g.stackedCows).2 = false
          ∧ (applyGravity cow0).y + (applyGravity cow0).height ≥ containerHeight - 20
          ∧ (containerWidth / 2 - 50 ≤ cowCenter (applyGravity cow0)
            ∧ cowCenter (applyGravity cow0) ≤ containerWidth / 2 + 50)) :=
        fun h => hg ⟨h.1, h.2.1⟩
      rw [h1, h2]
      simp only [if_neg hc1, if_neg (fun h => Or.elim h hs hc1), add_zero]
      simp

/-- C2 witness: in `stackLandingRound` the falling cow (centre 199) lands on
the stacked cow in the next iteration and the score goes from 10 to 25. -/
theorem landing_score_rule_witness :
    stackLandingRound.fallingCows.get? 0 = some secondCow ∧ secondCow.landed = false ∧
      stackLandingRound.score = 10 ∧
      (finalState (resolveCow 400 400 0 stackLandingRound)).score = 25 ∧
      (finalState (resolveCow 400 400 0 stackLandingRound)).stackedCows.length = 2 := by
  have h := landing_score_rule 400 400 0 stackLandingRound secondCow (by decide!) (by decide!)
  have e1 : stackLandingRound.score = 10 := by decide!
  have e2 : stackLandingRound.stackedCows.length = 1 := by decide!
  have c1 : (collisionScan (applyGravity secondCow) (400 - 20) stackLandingRound.stackedCows).2
        = true
      ∧ (applyGravity secondCow).y + (applyGravity secondCow).height
        ≥ (collisionScan (applyGravity secondCow) (400 - 20) stackLandingRound.stackedCows).1 := by
    decide!
  have c2 : (400 : ℚ) / 2 - 50 ≤ cowCenter (applyGravity secondCow)
      ∧ cowCenter (applyGravity secondCow) ≤ 400 / 2 + 50 := by decide!
  rw [if_pos c1, if_pos c2, if_pos (Or.inl c1), e1, e2] at h
  exact ⟨by decide!, by decide!, e1, h.1, h.2⟩

/-! ## C3: the crane speed as a function of the score -/

theorem reachable_stackLandingRound : Reachable stackLandingRound := by
  unfold stackLandingRound groundLandingRound
  refine reachable_runFrames 400 400 28 _ (Reachable.step (Reachable.step ?_
    (Step.spawn 1 _)) (Step.drop _))
  refine reachable_runFrames 400 400 1 _ (reachable_runFrames 400 400 30 _ ?_)
  exact Reachable.step (reachable_runFrames 400 400 106 _ reachable_freshRound) (Step.drop _)

/-- C3: in every state of a round (after `startGame` and any sequence of
drops, spawns, animation frames and timer firings, so in particular after
every frame in which `updateFallingCows` scored a landing) `craneSpeed` is
`min(1.5 + score * 0.008, 4)` in exact rational arithmetic, and therefore
lies between 1.5 and 4. -/
theorem craneSpeed_function_of_score (g : Game) (hr : Reachable g) :
    g.craneSpeed = min (3 / 2 + (g.score : ℚ) * (1 / 125)) 4 ∧
      3 / 2 ≤ g.craneSpeed ∧ g.craneSpeed ≤ 4 ∧
      ∀ containerWidth containerHeight : ℚ,
        (finalState (gameLoop containerWidth containerHeight g)).craneSpeed
          = min (3 / 2
              + ((finalState (gameLoop containerWidth containerHeight g)).score : ℚ)
                * (1 / 125)) 4 := by
  obtain ⟨_, h2, h3, _⟩ := reachable_roundInv g hr
  have hs : (0 : ℚ) ≤ (g.score : ℚ) := by exact_mod_cast h2
  refine ⟨h3, ?_, ?_, ?_⟩
  · rw [h3]
    unfold speedOfScore
    exact le_min (by linarith) (by norm_num)
  · rw [h3]
    exact min_le_right _ _
  · intro containerWidth containerHeight
    exact (gameLoop_roundInv containerWidth containerHeight g
      (reachable_roundInv g hr)).2.2.1

/-- C3 witness: after the stack landing of `stackLandingRound` the score is 25
and the crane speed is `1.5 + 25 * 0.008 = 1.7`. -/
theorem craneSpeed_function_of_score_witness :
    Reachable afterStackLanding ∧ afterStackLanding.score = 25 ∧
      afterStackLanding.craneSpeed = 17 / 10 ∧
      afterStackLanding.craneSpeed
        = min (3 / 2 + (afterStackLanding.score : ℚ) * (1 / 125)) 4 ∧
      3 / 2 ≤ afterStackLanding.craneSpeed ∧ afterStackLanding.craneSpeed ≤ 4 :=
  have hr : Reachable afterStackLanding :=
    Reachable.step reachable_stackLandingRound (Step.frame 400 400 _)
  have h := craneSpeed_function_of_score afterStackLanding hr
  ⟨hr, by decide!, by decide!, h.1, h.2.1, h.2.2.1⟩

/-! ## C4: the stack check comes before the ground check -/

/-- C4: let the falling cow `cow0` at `index` (not landed), after the gravity
step, overlap at least one stacked cow, let every stacked cow lie above ground
level, and let the cow's bottom edge have reached ground level with its centre
inside the zone.  Then the iteration resolves it as a stack landing: with `m`
the smallest `y` among the overlapping stacked cows, exactly one cow is
appended to `stackedCows`, the falling cow with `y = m - height`, `landed`
set and `x` as it was; this is above the ground-landing position
`groundLevel - height`; the score rises by 15, once, and no life is lost. -/
theorem stack_landing_precedes_ground (containerWidth containerHeight : ℚ) (index : ℕ)
    (g : Game) (cow0 : Cow) (hget : g.fallingCows.get? index = some cow0)
    (hland : cow0.landed = false)
    (hover : ∃ sc ∈ g.stackedCows, overlaps (applyGravity cow0) sc)
    (habove : ∀ sc ∈ g.stackedCows, sc.y < containerHeight - 20)
    (hbottom : (applyGravity cow0).y + (applyGravity cow0).height ≥ containerHeight - 20)
    (hzone : containerWidth / 2 - 50 ≤ cowCenter (applyGravity cow0)
      ∧ cowCenter (applyGravity cow0) ≤ containerWidth / 2 + 50) :
    ∃ m : ℚ,
      (∃ sc ∈ g.stackedCows, overlaps (applyGravity cow0) sc ∧ sc.y = m) ∧
      (∀ sc ∈ g.stackedCows, overlaps (applyGravity cow0) sc → m ≤ sc.y) ∧
      (finalState (resolveCow containerWidth containerHeight index g)).stackedCows
        = g.stackedCows ++
            [{ applyGravity cow0 with y := m - (applyGravity cow0).height, landed := true }] ∧
      (applyGravity cow0).x = cow0.x ∧
      m - (applyGravity cow0).height < containerHeight - 20 - (applyGravity cow0).height ∧
      (finalState (resolveCow containerWidth containerHeight index g)).score = g.score + 15 ∧
      (finalState (resolveCow containerWidth containerHeight index g)).lives = g.lives := by
  obtain ⟨sc, hsc, ho⟩ := hover
  obtain ⟨hdet, hlt, hex, hmin⟩ := collisionScan_detects (applyGravity cow0)
    (containerHeight - 20) g.stackedCows ⟨sc, hsc, ho, habove sc hsc⟩
  have hreach : (applyGravity cow0).y + (applyGravity cow0).height
      ≥ (collisionScan (applyGravity cow0) (containerHeight - 20) g.stackedCows).1 :=
    le_trans (le_of_lt hlt) hbottom
  have hz : cowCenter (applyGravity cow0) ≥ stackingZoneLeft containerWidth
      ∧ cowCenter (applyGravity cow0) ≤ stackingZoneRight containerWidth := by
    unfold stackingZoneLeft stackingZoneRight
    exact ⟨by linarith [hzone.1], by linarith [hzone.2]⟩
  obtain ⟨h1, h2, h3, _⟩ := resolveCow_stack_final containerWidth containerHeight index g
    cow0 hget hland hdet hreach _ rfl
  refine ⟨(collisionScan (applyGravity cow0) (containerHeight - 20) g.stackedCows).1,
    hex, hmin, h1, rfl, by linarith, ?_, h3⟩
  rw [h2, if_pos hz]

/-- C4 witness: in `tunnelRound` (container 400 by 1688) the falling cow
overlaps the stacked cow at `y = 1626`, and its gravity step takes its bottom
edge to 1668.8, at ground level 1668, with its centre 199 inside the zone; it
is stacked at `y = 1626 - 42` with `x = 174` and the score goes from 10 to
25. -/
theorem stack_landing_precedes_ground_witness :
    tunnelRound.fallingCows.get? 0 = some tunnelCow ∧
      (∃ sc ∈ tunnelRound.stackedCows, overlaps (applyGravity tunnelCow) sc) ∧
      (applyGravity tunnelCow).y + (applyGravity tunnelCow).height ≥ 1688 - 20 ∧
      tunnelRound.score = 10 ∧
      ∃ m : ℚ,
        (∃ sc ∈ tunnelRound.stackedCows, overlaps (applyGravity tunnelCow) sc ∧ sc.y = m) ∧
        (∀ sc ∈ tunnelRound.stackedCows, overlaps (applyGravity tunnelCow) sc → m ≤ sc.y) ∧
        (finalState (resolveCow 400 1688 0 tunnelRound)).stackedCows
          = tunnelRound.stackedCows ++
            [{ applyGravity tunnelCow with
                y := m - (applyGravity tunnelCow).height, landed := true }] ∧
        (applyGravity tunnelCow).x = tunnelCow.x ∧
        m - (applyGravity tunnelCow).height
          < 1688 - 20 - (applyGravity tunnelCow).height ∧
        (finalState (resolveCow 400 1688 0 tunnelRound)).score = tunnelRound.score + 15 ∧
        (finalState (resolveCow 400 1688 0 tunnelRound)).lives = tunnelRound.lives :=
  ⟨by decide!, by decide!, by decide!, by decide!,
    stack_landing_precedes_ground 400 1688 0 tunnelRound tunnelCow (by decide!) (by decide!)
      (by decide!) (by decide!) (by decide!) (by decide!)⟩

/-! ## C5: a cow below the off-screen line -/

/-- C5 (the code at the failing input): `longFall` is a state of a round with
`lives = 3` and one falling cow at `y = 311`; the next frame finds the
container 200 high.  The cow overlaps no stacked cow, its centre 40 is outside
the zone and after the gravity step `y = 329 > 200 + 50`: the miss branch and
the off-screen block both call `loseLife`, and the frame ends with
`lives = 1`: this one cow cost two lives. -/
theorem offscreen_miss_costs_two_lives :
    Reachable longFall ∧ longFall.lives = 3 ∧ longFall.stackedCows = [] ∧
      longFall.fallingCows = [{ firstCow with y := 311, vy := 87 / 5 }] ∧
      (applyGravity { firstCow with y := 311, vy := 87 / 5 }).y = 329 ∧
      (finalState (gameLoop 400 200 longFall)).lives = 1 ∧
      (finalState (gameLoop 400 200 longFall)).gameState = GameState.playing := by
  refine ⟨?_, by decide!, by decide!, by decide!, by decide!, by decide!, by decide!⟩
  exact reachable_runFrames 400 1000 29 _ (Reachable.step reachable_freshRound (Step.drop _))

/-! ## C6: a miss at ground level -/

/-- C6: a falling cow (the entry `cow0` at `index`, not landed) that after the
gravity step overlaps no stacked cow, has its bottom edge at or below ground
level and its centre outside the zone `[W/2 - 50, W/2 + 50]` is resolved as a
miss: it is spliced out of `fallingCows` (which is the old array without entry
`index`, or that array with one more entry spliced out at `index` by the
off-screen block; no entry with the cow's identity remains when identities are
distinct), `stackedCows`, `score`, `highestStack` and `craneSpeed` are
unchanged, and `lives` is lower than before. -/
theorem ground_miss_effect (containerWidth containerHeight : ℚ) (index : ℕ) (g : Game)
    (cow0 : Cow) (hget : g.fallingCows.get? index = some cow0) (hland : cow0.landed = false)
    (hno : ∀ sc ∈ g.stackedCows, ¬ overlaps (applyGravity cow0) sc)
    (hbottom : (applyGravity cow0).y + (applyGravity cow0).height ≥ containerHeight - 20)
    (hzone : ¬ (containerWidth / 2 - 50 ≤ cowCenter (applyGravity cow0)
          ∧ cowCenter (applyGravity cow0) ≤ containerWidth / 2 + 50)) :
    ((finalState (resolveCow containerWidth containerHeight index g)).fallingCows
        = g.fallingCows.eraseIdx index
      ∨ (finalState (resolveCow containerWidth containerHeight index g)).fallingCows
          = (g.fallingCows.eraseIdx index).eraseIdx index) ∧
    ((g.fallingCows.map Cow.uid).Nodup →
      cow0.uid ∉ (finalState (resolveCow containerWidth containerHeight index g)).fallingCows.map
        Cow.uid) ∧
    (finalState (resolveCow containerWidth containerHeight index g)).stackedCows
      = g.stackedCows ∧
    (finalState (resolveCow containerWidth containerHeight index g)).score = g.score ∧
    (finalState (resolveCow containerWidth containerHeight index g)).highestStack
      = g.highestStack ∧
    (finalState (resolveCow containerWidth containerHeight index g)).craneSpeed
      = g.craneSpeed ∧
    (finalState (resolveCow containerWidth containerHeight index g)).lives < g.lives := by
  have hz : ¬ (cowCenter (applyGravity cow0) ≥ stackingZoneLeft containerWidth
        ∧ cowCenter (applyGravity cow0) ≤ stackingZoneRight containerWidth) := by
    unfold stackingZoneLeft stackingZoneRight
    intro h
    apply hzone
    constructor
    · linarith [h.1]
    · linarith [h.2]
  have hfin := resolveCow_miss_final containerWidth containerHeight index g cow0 hget hland
    (collisionScan_no_overlap (applyGravity cow0) (containerHeight - 20) g.stackedCows hno)
    hbottom hz
  obtain ⟨pre, post, hsplit, herase, _⟩ := split_at_index g.fallingCows index cow0 hget
  have hnot : (g.fallingCows.map Cow.uid).Nodup →
      cow0.uid ∉ (g.fallingCows.eraseIdx index).map Cow.uid := by
    intro hnodup
    rw [hsplit] at hnodup
    rw [herase]
    simp only [List.map_append, List.map_cons] at hnodup ⊢
    have := List.nodup_middle.mp hnodup
    exact (List.nodup_cons.mp this).1
  have hnot2 : (g.fallingCows.map Cow.uid).Nodup →
      cow0.uid ∉ ((g.fallingCows.eraseIdx index).eraseIdx index).map Cow.uid := by
    intro hnodup hmem
    obtain ⟨c, hc, hcu⟩ := List.mem_map.mp hmem
    exact hnot hnodup (List.mem_map.mpr ⟨c, List.mem_of_mem_eraseIdx hc, hcu⟩)
  rw [hfin]
  by_cases h1 : (1 ≤ g.lives ∧ g.lives ≤ 4) ∧ (applyGravity cow0).y > containerHeight + 50
  · rw [if_pos h1]
    exact ⟨Or.inr rfl, hnot2, rfl, rfl, rfl, rfl, by simp only; omega⟩
  · rw [if_neg h1]
    exact ⟨Or.inl rfl, hnot, rfl, rfl, rfl, rfl, by simp only; omega⟩

/-- C6 witness: the first cow of a fresh round, dropped at the left wall of a
400 by 100 container, misses the zone on its first frame. -/
theorem ground_miss_effect_witness :
    ((finalState (resolveCow 400 100 0 (dropCow freshRound))).fallingCows
        = (dropCow freshRound).fallingCows.eraseIdx 0
      ∨ (finalState (resolveCow 400 100 0 (dropCow freshRound))).fallingCows
          = ((dropCow freshRound).fallingCows.eraseIdx 0).eraseIdx 0) ∧
    ((dropCow freshRound).fallingCows.map Cow.uid).Nodup ∧
    firstCow.uid ∉ (finalState (resolveCow 400 100 0 (dropCow freshRound))).fallingCows.map
      Cow.uid ∧
    (finalState (resolveCow 400 100 0 (dropCow freshRound))).stackedCows
      = (dropCow freshRound).stackedCows ∧
    (finalState (resolveCow 400 100 0 (dropCow freshRound))).score
      = (dropCow freshRound).score ∧
    (finalState (resolveCow 400 100 0 (dropCow freshRound))).highestStack
      = (dropCow freshRound).highestStack ∧
    (finalState (resolveCow 400 100 0 (dropCow freshRound))).craneSpeed
      = (dropCow freshRound).craneSpeed ∧
    (finalState (resolveCow 400 100 0 (dropCow freshRound))).lives
      < (dropCow freshRound).lives :=
  have h := ground_miss_effect 400 100 0 (dropCow freshRound) firstCow (by decide!)
    (by decide!) (by decide!) (by decide!) (by decide!)
  have hn : ((dropCow freshRound).fallingCows.map Cow.uid).Nodup := by decide!
  ⟨h.1, hn, h.2.1 hn, h.2.2⟩

/-! ## C7: a landed cow moves to the stack once and for all -/

/-- C7: in every state `g` of a round every cow in `fallingCows` has
`landed = false`, every cow in `stackedCows` has `landed = true`, no cow
(object identity `uid`) is in both collections and none occurs twice in
`stackedCows`.  One animation frame only appends to `stackedCows`, and every
cow it appends was falling before the frame and is no longer in `fallingCows`
after it.  After any further sequence of events the cows stacked in `g` are
still stacked, in place, and none of them is in `fallingCows`. -/
theorem landed_cows_leave_falling_for_good (g : Game) (hr : Reachable g) :
    (∀ c ∈ g.fallingCows, c.landed = false) ∧
      (∀ c ∈ g.stackedCows, c.landed = true) ∧
      (∀ c ∈ g.fallingCows, ∀ d ∈ g.stackedCows, c.uid ≠ d.uid) ∧
      (g.stackedCows.map Cow.uid).Nodup ∧
      (∀ containerWidth containerHeight : ℚ,
        g.stackedCows <+: (finalState (gameLoop containerWidth containerHeight g)).stackedCows ∧
        ∀ d ∈ (finalState (gameLoop containerWidth containerHeight g)).stackedCows,
          d ∉ g.stackedCows →
            d.landed = true ∧ d.uid ∈ g.fallingCows.map Cow.uid ∧
            d.uid ∉ (finalState (gameLoop containerWidth containerHeight g)).fallingCows.map
              Cow.uid) ∧
      (∀ g2 : Game, Relation.ReflTransGen Step g g2 →
        g.stackedCows <+: g2.stackedCows ∧
        ∀ d ∈ g.stackedCows, d ∈ g2.stackedCows ∧ d.uid ∉ g2.fallingCows.map Cow.uid) := by
  have hinv := reachable_cowsInv g hr
  obtain ⟨c1, c2, c3, _⟩ := reachable_cowsInv g hr
  refine ⟨c1, c2, ?_, (List.nodup_append.mp c3).2.1, ?_, ?_⟩
  · intro c hc d hd heq
    exact cowsInv_disjoint g hinv d hd (List.mem_map.mpr ⟨c, hc, heq⟩)
  · intro containerWidth containerHeight
    obtain ⟨k1, r1, r2, _, _⟩ := gameLoop_cows containerWidth containerHeight g hinv
    refine ⟨r1, ?_⟩
    intro d hd hnot
    refine ⟨k1.2.1 d hd, ?_, cowsInv_disjoint _ k1 d hd⟩
    rcases r2 d hd with h | h
    · exact absurd h hnot
    · exact h
  · intro g2 hs
    obtain ⟨hr2, hpre⟩ := reachable_steps hr hs
    refine ⟨hpre, ?_⟩
    intro d hd
    exact ⟨hpre.subset hd, cowsInv_disjoint g2 (reachable_cowsInv g2 hr2) d (hpre.subset hd)⟩

/-- C7 witness: `stackLandingRound` is a state of a round with one falling and
one stacked cow; the next frame stacks the falling cow on top (two stacked
cows, none falling). -/
theorem landed_cows_leave_falling_for_good_witness :
    Reachable stackLandingRound ∧ stackLandingRound.fallingCows.length = 1 ∧
      stackLandingRound.stackedCows.length = 1 ∧
      (∀ c ∈ stackLandingRound.fallingCows, c.landed = false) ∧
      (∀ c ∈ stackLandingRound.stackedCows, c.landed = true) ∧
      (finalState (gameLoop 400 400 stackLandingRound)).stackedCows.length = 2 ∧
      (finalState (gameLoop 400 400 stackLandingRound)).fallingCows = [] ∧
      stackLandingRound.stackedCows
        <+: (finalState (gameLoop 400 400 stackLandingRound)).stackedCows :=
  have h := landed_cows_leave_falling_for_good stackLandingRound reachable_stackLandingRound
  ⟨reachable_stackLandingRound, by decide!, by decide!, h.1, h.2.1, by decide!, by decide!,
    (h.2.2.2.2.1 400 400).1⟩

/-! ## C8: handlers outside `playing` -/

/-- C8: when `gameState` is not `playing`, `dropCow`, the frame tick `gameLoop`
and the one-second timer callback return without changing any global: the
whole state, and so score, lives, timeLeft, timeSurvived, craneSpeed,
cranePosition, the cow on the crane, fallingCows and stackedCows, is the same
after as before. -/
theorem handlers_idle_when_not_playing (containerWidth containerHeight : ℚ) (g : Game)
    (h : g.gameState ≠ GameState.playing) :
    dropCow g = g ∧ gameLoop containerWidth containerHeight g = Except.ok g ∧
      timerTick g = Except.ok g ∧
      (dropCow g).fallingCows = g.fallingCows := by
  refine ⟨?_, ?_, ?_, ?_⟩
  · simp [dropCow, h]
  · simp [gameLoop, h, pure, Except.pure]
  · simp [timerTick, h, pure, Except.pure]
  · simp [dropCow, h]

/-- C8 witness: after `endGame` on a fresh round (a cow is on the crane) a
drop, a frame and a timer firing leave the globals as they are. -/
theorem handlers_idle_when_not_playing_witness :
    (endGame freshRound).gameState ≠ GameState.playing ∧
      (endGame freshRound).currentCowOnCrane ≠ none ∧
      dropCow (endGame freshRound) = endGame freshRound ∧
      gameLoop 400 600 (endGame freshRound) = Except.ok (endGame freshRound) ∧
      timerTick (endGame freshRound) = Except.ok (endGame freshRound) ∧
      (dropCow (endGame freshRound)).fallingCows = (endGame freshRound).fallingCows :=
  ⟨by decide, by decide,
    handlers_idle_when_not_playing 400 600 (endGame freshRound) (by decide)⟩

/-! ## C9: the end of the round -/

/-- C9: in every state `g` of a round with `gameState = playing`, `timeLeft`
and `lives` are positive.  A timer firing in `g` takes one second off
`timeLeft`, sets `timeSurvived = 60 - timeLeft` and ends the round exactly
when `timeLeft` was 1; `loseLife` in any state with `lives = 1` brings lives
to 0 and sets `gameState` to `gameover` whatever `timeLeft` is.  Scenarios:
60 timer firings after any `startGame` end the round with `timeLeft = 0` and
`timeSurvived = 60`, while after 59 the round is still being played; three
misses in a row end the round with 60 seconds left. -/
theorem round_over_when_timer_or_lives_run_out (g : Game) (hr : Reachable g)
    (hp : g.gameState = GameState.playing) :
    0 < g.timeLeft ∧ 0 < g.lives ∧
      (finalState (timerTick g)).timeLeft = g.timeLeft - 1 ∧
      (finalState (timerTick g)).timeSurvived = 60 - (g.timeLeft - 1) ∧
      (finalState (timerTick g)).gameState
        = (if g.timeLeft = 1 then GameState.gameover else GameState.playing) ∧
      (∀ g2 : Game,
        (finalState (loseLife { g2 with lives := 1 })).lives = 0 ∧
        (finalState (loseLife { g2 with lives := 1 })).gameState = GameState.gameover ∧
        (finalState (loseLife { g2 with lives := 1 })).timeLeft = g2.timeLeft) ∧
      (∀ (username : String) (k : Fin 4) (g0 : Game),
        (runTimer 59 (startGame username k g0)).gameState = GameState.playing ∧
        (runTimer 60 (startGame username k g0)).gameState = GameState.gameover ∧
        (runTimer 60 (startGame username k g0)).timeLeft = 0 ∧
        (runTimer 60 (startGame username k g0)).timeSurvived = 60) ∧
      thirdMiss.gameState = GameState.gameover ∧ thirdMiss.lives = 0 ∧
      thirdMiss.timeLeft = 60 := by
  obtain ⟨h1, _, _, h4⟩ := reachable_roundInv g hr
  obtain ⟨h5, h6⟩ := h4 hp
  refine ⟨h6, h5, ?_, ?_, ?_, ?_, ?_, by decide!, by decide!, by decide!⟩
  · rw [timerTick_playing g hp ⟨h5, h1⟩]; rfl
  · rw [timerTick_playing g hp ⟨h5, h1⟩]; rfl
  · rw [timerTick_playing g hp ⟨h5, h1⟩]
    simp only [finalState]
    by_cases ht : g.timeLeft = 1
    · rw [if_pos ht, if_pos (by omega)]
    · rw [if_neg ht, if_neg (by omega)]
  · intro g2
    rw [loseLife_ok _ (by simp)]
    simp [finalState]
  · intro username k g0
    have hstart : (startGame username k g0).gameState = GameState.playing ∧
        (startGame username k g0).lives = 3 ∧ (startGame username k g0).timeLeft = 60 := by
      simp [startGame, spawnNewCow]
    obtain ⟨s1, s2, s3⟩ := hstart
    obtain ⟨t1, t2, t3, _⟩ := runTimer_countdown 59 (startGame username k g0) s1
      (by omega) (by rw [s3]; norm_num)
    have e : runTimer 60 (startGame username k g0)
        = finalState (timerTick (runTimer 59 (startGame username k g0))) := by
      have : ∀ (n : ℕ) (g : Game),
          runTimer (n + 1) g = finalState (timerTick (runTimer n g)) := by
        intro n
        induction n with
        | zero => intro g; rfl
        | succ n ih => intro g; exact ih (finalState (timerTick g))
      exact this 59 _
    refine ⟨t1, ?_, ?_, ?_⟩
    · rw [e, timerTick_playing _ t1 (by omega)]
      simp only [finalState, t3, s3]
      norm_num
    · rw [e, timerTick_playing _ t1 (by omega)]
      simp only [finalState, t3, s3]
      norm_num
    · rw [e, timerTick_playing _ t1 (by omega)]
      simp only [finalState, t3, s3]
      norm_num

/-- C9 witness: a fresh round after 59 timer firings is a state of a round,
still being played with `timeLeft = 1`; the 60th firing ends it with
`timeSurvived = 60`. -/
theorem round_over_when_timer_or_lives_run_out_witness :
    Reachable (runTimer 59 freshRound) ∧
      (runTimer 59 freshRound).gameState = GameState.playing ∧
      (runTimer 59 freshRound).timeLeft = 1 ∧
      0 < (runTimer 59 freshRound).lives ∧
      (finalState (timerTick (runTimer 59 freshRound))).timeSurvived = 60 ∧
      (finalState (timerTick (runTimer 59 freshRound))).gameState = GameState.gameover :=
  have hr : Reachable (runTimer 59 freshRound) := reachable_runTimer 59 _ reachable_freshRound
  have h := round_over_when_timer_or_lives_run_out (runTimer 59 freshRound) hr (by decide!)
  ⟨hr, by decide!, by decide!, h.2.1, by decide!, by decide!⟩

/-! ## C10: one smoothing step of the view offset -/

/-- C10: for integers `offset` and `target`, the smoothing step of `updateView`
(`smoothStep`, the value `updateView` stores in `viewOffsetY`) does not
increase the distance to the target and does not pass it: the new offset lies
between the old offset and the target. -/
theorem smoothStep_no_overshoot (offset target : ℤ) :
    |(target : ℚ) - smoothStep offset target| ≤ |(target : ℚ) - offset| ∧
      (offset ≤ target →
        (offset : ℚ) ≤ smoothStep offset target ∧ smoothStep offset target ≤ target) ∧
      (target ≤ offset →
        (target : ℚ) ≤ smoothStep offset target ∧ smoothStep offset target ≤ offset) ∧
      ∀ (containerHeight : ℚ) (g : Game),
        (updateView containerHeight g).viewOffsetY
          = smoothStep g.viewOffsetY (updateView containerHeight g).targetViewOffsetY := by
  have hfl : (⌊(offset : ℚ) + ((target : ℚ) - offset) * (1 / 10)⌋ : ℤ)
      ≤ (offset : ℚ) + ((target : ℚ) - offset) * (1 / 10) := Int.floor_le _
  have hup : ∀ z : ℤ, (z : ℚ) ≤ (offset : ℚ) + ((target : ℚ) - offset) * (1 / 10) →
      (z : ℚ) ≤ smoothStep offset target := by
    intro z hz
    unfold smoothStep
    exact_mod_cast Int.le_floor.mpr hz
  have hlow : (offset ≤ target →
        (offset : ℚ) ≤ smoothStep offset target ∧ smoothStep offset target ≤ target) := by
    intro h
    have hq : (offset : ℚ) ≤ target := by exact_mod_cast h
    refine ⟨hup offset (by linarith), ?_⟩
    unfold smoothStep
    linarith
  have hhigh : (target ≤ offset →
        (target : ℚ) ≤ smoothStep offset target ∧ smoothStep offset target ≤ offset) := by
    intro h
    have hq : (target : ℚ) ≤ offset := by exact_mod_cast h
    refine ⟨hup target (by linarith), ?_⟩
    unfold smoothStep
    linarith
  refine ⟨?_, hlow, hhigh, fun _ _ => rfl⟩
  rcases le_total offset target with h | h
  · obtain ⟨h1, h2⟩ := hlow h
    have hq : (offset : ℚ) ≤ target := by exact_mod_cast h
    rw [abs_of_nonneg (by linarith), abs_of_nonneg (by linarith)]
    linarith
  · obtain ⟨h1, h2⟩ := hhigh h
    have hq : (target : ℚ) ≤ offset := by exact_mod_cast h
    rw [abs_of_nonpos (by linarith), abs_of_nonpos (by linarith)]
    linarith

/-- C10 witness: from offset 0 towards target 25 the step gives 2, from offset
25 towards target 0 it gives 22; both lie between the offset and the target. -/
theorem smoothStep_no_overshoot_witness :
    smoothStep ((0 : ℤ) : ℚ) ((25 : ℤ) : ℚ) = 2 ∧ smoothStep ((25 : ℤ) : ℚ) ((0 : ℤ) : ℚ) = 22 ∧
      (((0 : ℤ) : ℚ) ≤ smoothStep ((0 : ℤ) : ℚ) ((25 : ℤ) : ℚ)
        ∧ smoothStep ((0 : ℤ) : ℚ) ((25 : ℤ) : ℚ) ≤ ((25 : ℤ) : ℚ)) ∧
      (((0 : ℤ) : ℚ) ≤ smoothStep ((25 : ℤ) : ℚ) ((0 : ℤ) : ℚ)
        ∧ smoothStep ((25 : ℤ) : ℚ) ((0 : ℤ) : ℚ) ≤ ((25 : ℤ) : ℚ)) :=
  ⟨by decide!, by decide!, (smoothStep_no_overshoot 0 25).2.1 (by decide),
    (smoothStep_no_overshoot 25 0).2.2.1 (by decide)⟩

/-! ## C11: repeated smoothing steps -/

theorem smoothStep_int (offset target : ℤ) :
    smoothStep offset target = (smoothStepInt offset target : ℚ) := rfl

theorem viewSteps_int (target : ℤ) (n : ℕ) :
    ∀ offset : ℤ, viewSteps target n offset = (viewStepsInt target n offset : ℚ) := by
  induction n with
  | zero => intro offset; rfl
  | succ n ih =>
    intro offset
    show viewSteps target n (smoothStep offset target) = _
    rw [smoothStep_int, ih]
    rfl

theorem smoothStepInt_above (offset target : ℤ) (h : target < offset) :
    target ≤ smoothStepInt offset target ∧ smoothStepInt offset target < offset := by
  have hq : (target : ℚ) < offset := by exact_mod_cast h
  constructor
  · exact Int.le_floor.mpr (by linarith)
  · have h1 : ((smoothStepInt offset target : ℤ) : ℚ)
        ≤ (offset : ℚ) + ((target : ℚ) - offset) * (1 / 10) := Int.floor_le _
    have h2 : ((smoothStepInt offset target : ℤ) : ℚ) < offset := by linarith
    exact_mod_cast h2

theorem smoothStepInt_below (offset target : ℤ) (h : offset < target) :
    offset ≤ smoothStepInt offset target ∧ smoothStepInt offset target < target ∧
      (target - offset < 10 → smoothStepInt offset target = offset) ∧
      (10 ≤ target - offset → offset < smoothStepInt offset target) := by
  have hq : (offset : ℚ) < target := by exact_mod_cast h
  have h1 : ((smoothStepInt offset target : ℤ) : ℚ)
      ≤ (offset : ℚ) + ((target : ℚ) - offset) * (1 / 10) := Int.floor_le _
  refine ⟨Int.le_floor.mpr (by linarith), ?_, ?_, ?_⟩
  · have h2 : ((smoothStepInt offset target : ℤ) : ℚ) < target := by linarith
    exact_mod_cast h2
  · intro hlt
    have hq2 : (target : ℚ) - offset < 10 := by exact_mod_cast hlt
    exact Int.floor_eq_iff.mpr ⟨by linarith, by linarith⟩
  · intro hge
    have hq2 : (10 : ℚ) ≤ (target : ℚ) - offset := by exact_mod_cast hge
    have h3 : offset + 1 ≤ smoothStepInt offset target :=
      Int.le_floor.mpr (by push_cast; linarith)
    omega

theorem viewStepsInt_fixed (offset target : ℤ) (h : smoothStepInt offset target = offset)
    (n : ℕ) : viewStepsInt target n offset = offset := by
  induction n with
  | zero => rfl
  | succ n ih =>
    show viewStepsInt target n (smoothStepInt offset target) = offset
    rw [h, ih]

theorem viewStepsInt_add_one (target : ℤ) (n : ℕ) (offset : ℤ) :
    viewStepsInt target (n + 1) offset = viewStepsInt target n (smoothStepInt offset target) :=
  rfl

theorem viewStepsInt_reaches_from_above (target : ℤ) (d : ℕ) :
    ∀ offset : ℤ, target ≤ offset → offset - target ≤ d →
      ∃ n : ℕ, (n : ℤ) ≤ offset - target ∧ viewStepsInt target n offset = target := by
  induction d with
  | zero =>
    intro offset h1 h2
    have : offset = target := by push_cast at h2; omega
    exact ⟨0, by simp [this], by rw [this]; rfl⟩
  | succ d ih =>
    intro offset h1 h2
    rcases eq_or_lt_of_le h1 with h | h
    · exact ⟨0, by simp [h], by rw [← h]; rfl⟩
    · obtain ⟨s1, s2⟩ := smoothStepInt_above offset target h
      obtain ⟨n, hn1, hn2⟩ := ih (smoothStepInt offset target) s1 (by push_cast at h2; omega)
      exact ⟨n + 1, by push_cast; omega, hn2⟩

theorem viewStepsInt_stays_below (target : ℤ) (n : ℕ) :
    ∀ offset : ℤ, offset < target → viewStepsInt target n offset < target := by
  induction n with
  | zero => intro offset h; exact h
  | succ n ih =>
    intro offset h
    exact ih _ (smoothStepInt_below offset target h).2.1

theorem viewStepsInt_stalls_below (target : ℤ) (d : ℕ) :
    ∀ offset : ℤ, offset < target → target - offset ≤ d →
      ∃ n : ℕ, target - viewStepsInt target n offset ≤ 9 ∧
        ∀ m : ℕ, viewStepsInt target (n + m) offset = viewStepsInt target n offset := by
  induction d with
  | zero => intro offset h1 h2; push_cast at h2; omega
  | succ d ih =>
    intro offset h1 h2
    obtain ⟨s1, s2, s3, s4⟩ := smoothStepInt_below offset target h1
    by_cases hlt : target - offset < 10
    · refine ⟨0, by show target - offset ≤ 9; omega, ?_⟩
      intro m
      rw [Nat.zero_add]
      exact viewStepsInt_fixed offset target (s3 hlt) m
    · have hgt := s4 (by omega)
      obtain ⟨n, hn1, hn2⟩ := ih (smoothStepInt offset target) s2
        (by push_cast at h2; omega)
      refine ⟨n + 1, hn1, ?_⟩
      intro m
      have e : n + 1 + m = (n + m) + 1 := by omega
      rw [e]
      exact hn2 m
theorem reachable_dropAndSettle (containerWidth containerHeight : ℚ) (k : Fin 4) (g : Game)
    (h : Reachable g) : Reachable (dropAndSettle containerWidth containerHeight k g) :=
  reachable_runFrames containerWidth containerHeight 40 _
    (Reachable.step (Reachable.step h (Step.spawn k g)) (Step.drop _))

theorem reachable_fiveStacked : Reachable fiveStacked := by
  unfold fiveStacked
  refine reachable_dropAndSettle 400 390 0 _ (reachable_dropAndSettle 400 390 3 _
    (reachable_dropAndSettle 400 390 2 _ (reachable_dropAndSettle 400 390 1 _ ?_)))
  refine reachable_runFrames 400 390 40 _ (Reachable.step ?_ (Step.drop _))
  exact reachable_runFrames 400 390 106 _ reachable_freshRound

/-- C11 (counterexample): `fiveStacked` is a state of a round in which the
top of the stack is at `y = 160`, so `updateView` computes the target offset
5, while `viewOffsetY` is 0.  A smoothing step from offset 0 towards target 5
gives `floor(0.5) = 0`: it does not reduce the distance, `updateView` leaves
the state as it is, and no number of steps brings the offset to the target. -/
theorem view_offset_stalls_below_target :
    Reachable fiveStacked ∧ fiveStacked.viewOffsetY = 0 ∧
      fiveStacked.targetViewOffsetY = 5 ∧ updateView 390 fiveStacked = fiveStacked ∧
      smoothStep 0 5 = 0 ∧ ¬ (|(5 : ℚ) - smoothStep 0 5| < |(5 : ℚ) - 0|) ∧
      ¬ ∃ n : ℕ, viewSteps 5 n 0 = 5 := by
  have hs : smoothStep 0 5 = 0 := by decide!
  have hfix : ∀ n : ℕ, viewSteps 5 n 0 = 0 := by
    intro n
    induction n with
    | zero => rfl
    | succ n ih =>
      show viewSteps 5 n (smoothStep 0 5) = 0
      rw [hs, ih]
  refine ⟨reachable_fiveStacked, by decide!, by decide!, by decide!, hs, ?_, ?_⟩
  · rw [hs]; simp
  · rintro ⟨n, hn⟩
    rw [hfix n] at hn
    norm_num at hn

/-- C11 (amended): with the target held constant, for an integer offset and an
integer target.  From above (`target < offset`) every step strictly reduces
`|target - offset|` and after at most `offset - target` steps the offset
equals the target.  From below (`offset < target`) a step strictly reduces
`|target - offset|` when `target - offset >= 10` and returns the offset
unchanged when `target - offset < 10`; the offset never reaches the target,
and after finitely many steps it stays for good at a value at most 9 below
the target. -/
theorem smoothing_reaches_target_only_from_above (offset target : ℤ) :
    (target < offset →
      |(target : ℚ) - smoothStep offset target| < |(target : ℚ) - offset| ∧
      ∃ n : ℕ, (n : ℤ) ≤ offset - target ∧ viewSteps target n offset = target) ∧
    (offset < target → 10 ≤ target - offset →
      |(target : ℚ) - smoothStep offset target| < |(target : ℚ) - offset|) ∧
    (offset < target → target - offset < 10 → smoothStep offset target = offset) ∧
    (offset < target →
      (∀ n : ℕ, viewSteps target n offset < target) ∧
      ∃ n : ℕ, (target : ℚ) - viewSteps target n offset ≤ 9 ∧
        ∀ m : ℕ, viewSteps target (n + m) offset = viewSteps target n offset) := by
  refine ⟨?_, ?_, ?_, ?_⟩
  · intro h
    obtain ⟨s1, s2⟩ := smoothStepInt_above offset target h
    have q1 : (target : ℚ) ≤ smoothStepInt offset target := by exact_mod_cast s1
    have q2 : ((smoothStepInt offset target : ℤ) : ℚ) < offset := by exact_mod_cast s2
    constructor
    · rw [smoothStep_int, abs_of_nonpos (by linarith), abs_of_nonpos (by linarith)]
      linarith
    · obtain ⟨n, hn1, hn2⟩ := viewStepsInt_reaches_from_above target (offset - target).toNat
        offset (le_of_lt h) (by omega)
      exact ⟨n, hn1, by rw [viewSteps_int, hn2]⟩
  · intro h hge
    obtain ⟨_, s2, _, s4⟩ := smoothStepInt_below offset target h
    have q1 : ((smoothStepInt offset target : ℤ) : ℚ) < target := by exact_mod_cast s2
    have q2 : (offset : ℚ) < smoothStepInt offset target := by exact_mod_cast s4 hge
    rw [smoothStep_int, abs_of_nonneg (by linarith), abs_of_nonneg (by linarith)]
    linarith
  · intro h hlt
    rw [smoothStep_int, (smoothStepInt_below offset target h).2.2.1 hlt]
  · intro h
    constructor
    · intro n
      rw [viewSteps_int]
      exact_mod_cast viewStepsInt_stays_below target n offset h
    · obtain ⟨n, hn1, hn2⟩ := viewStepsInt_stalls_below target (target - offset).toNat
        offset h (by omega)
      refine ⟨n, ?_, ?_⟩
      · rw [viewSteps_int]
        exact_mod_cast hn1
      · intro m
        rw [viewSteps_int, viewSteps_int, hn2 m]

/-- C11 witness: from offset 25 towards target 0 the first step gives 22 and
the target is reached within 25 steps; from offset 0 towards target 25 the
first step gives 2, from offset 16 the step gives 16 again, and the offset
stays below 25. -/
theorem smoothing_reaches_target_only_from_above_witness :
    smoothStep ((25 : ℤ) : ℚ) ((0 : ℤ) : ℚ) = 22 ∧
      (∃ n : ℕ, (n : ℤ) ≤ 25 - 0 ∧ viewSteps ((0 : ℤ) : ℚ) n ((25 : ℤ) : ℚ) = ((0 : ℤ) : ℚ)) ∧
      smoothStep ((0 : ℤ) : ℚ) ((25 : ℤ) : ℚ) = 2 ∧
      |(((25 : ℤ) : ℚ)) - smoothStep ((0 : ℤ) : ℚ) ((25 : ℤ) : ℚ)|
        < |(((25 : ℤ) : ℚ)) - ((0 : ℤ) : ℚ)| ∧
      smoothStep ((16 : ℤ) : ℚ) ((25 : ℤ) : ℚ) = ((16 : ℤ) : ℚ) ∧
      (∀ n : ℕ, viewSteps ((25 : ℤ) : ℚ) n ((0 : ℤ) : ℚ) < ((25 : ℤ) : ℚ)) :=
  ⟨by decide!,
    ((smoothing_reaches_target_only_from_above 25 0).1 (by decide)).2,
    by decide!,
    (smoothing_reaches_target_only_from_above 0 25).2.1 (by decide) (by decide),
    (smoothing_reaches_target_only_from_above 16 25).2.2.1 (by decide) (by decide),
    ((smoothing_reaches_target_only_from_above 0 25).2.2.2 (by decide)).1⟩

/-! ## C12: the shape of the stack after a frame -/

/-- For comparison with the ground branch: a stack landing keeps a well-formed
stack well formed.  The landed cow is put on top of the highest stacked cow it
overlaps, so it intersects none of them, and it rests above ground level. -/
theorem stack_landing_keeps_stack_well_formed (containerWidth containerHeight : ℚ)
    (index : ℕ) (g : Game) (cow0 : Cow) (hget : g.fallingCows.get? index = some cow0)
    (hland : cow0.landed = false)
    (hdet : (collisionScan (applyGravity cow0) (containerHeight - 20) g.stackedCows).2 = true)
    (hreach : (applyGravity cow0).y + (applyGravity cow0).height
      ≥ (collisionScan (applyGravity cow0) (containerHeight - 20) g.stackedCows).1)
    (hwf : WellFormedStack containerHeight g.stackedCows) :
    WellFormedStack containerHeight
      (finalState (resolveCow containerWidth containerHeight index g)).stackedCows := by
  obtain ⟨h1, _⟩ := resolveCow_stack_final containerWidth containerHeight index g cow0
    hget hland hdet hreach _ rfl
  obtain ⟨s1, s2, _⟩ := scan_fold_spec (applyGravity cow0) g.stackedCows
    (containerHeight - 20, false)
  obtain ⟨w1, w2⟩ := hwf
  rw [h1]
  refine ⟨List.pairwise_append.mpr ⟨w1, List.pairwise_singleton _ _, ?_⟩, ?_⟩
  · intro a ha b hb hint
    rw [List.mem_singleton.mp hb] at hint
    obtain ⟨i1, i2, i3, _⟩ := hint
    have hov : overlaps (applyGravity cow0) a := ⟨i2, i1⟩
    have hm := s2 a ha hov
    have e : collisionScan (applyGravity cow0) (containerHeight - 20) g.stackedCows
        = g.stackedCows.foldl (scanStep (applyGravity cow0)) (containerHeight - 20, false) :=
      rfl
    rw [e] at i3
    simp only at i3
    linarith
  · intro c hc
    rcases List.mem_append.mp hc with hc | hc
    · exact w2 c hc
    · rw [List.mem_singleton.mp hc]
      have e : collisionScan (applyGravity cow0) (containerHeight - 20) g.stackedCows
          = g.stackedCows.foldl (scanStep (applyGravity cow0)) (containerHeight - 20, false) :=
        rfl
      rw [e]
      simp only at s1 ⊢
      linarith

theorem reachable_edgeLandingRound : Reachable edgeLandingRound := by
  unfold edgeLandingRound
  refine reachable_runFrames 480 400 30 _ (Reachable.step (Reachable.step ?_
    (Step.spawn 1 _)) (Step.drop _))
  refine reachable_runFrames 480 400 40 _ (Reachable.step ?_ (Step.drop _))
  exact reachable_runFrames 480 400 100 _ reachable_freshRound

/-- C12 (the code at the failing input): `edgeLandingRound` is a state of a
round whose stack, one cow on the ground at `x = 215`, `y = 338`, is well
formed.  The falling cow at `x = 165` overlaps no stacked cow (its right edge
215 only touches the stacked cow) and its centre 190 is on the edge of the
zone `[190, 290]`, so the next run of `updateFallingCows` takes the ground
branch and snaps it to `x = 215`, `y = 338`: the two stacked cows occupy the
same box and the stack is no longer well formed. -/
theorem ground_snap_lands_inside_stacked_cow :
    Reachable edgeLandingRound ∧ WellFormedStack 400 edgeLandingRound.stackedCows ∧
      edgeLandingRound.stackedCows.map (fun c => (c.x, c.y, c.width, c.height))
        = [(215, 338, 50, 42)] ∧
      edgeLandingRound.fallingCows.map (fun c => (c.x, c.y, c.vy, c.width, c.height))
        = [(165, 329, 18, 50, 42)] ∧
      stackingZoneLeft 480 = 190 ∧
      (finalState (updateFallingCows 480 400 edgeLandingRound)).stackedCows.map
          (fun c => (c.x, c.y, c.width, c.height))
        = [(215, 338, 50, 42), (215, 338, 50, 42)] ∧
      ¬ WellFormedStack 400
          (finalState (updateFallingCows 480 400 edgeLandingRound)).stackedCows := by
  exact ⟨reachable_edgeLandingRound, by decide!, by decide!, by decide!, by decide!,
    by decide!, by decide!⟩

end LamumuStack
